import Mathlib

/-!
Shallow embedding of parts of the gcnn_keras repository, together with
theorems checking its natural-language specification.

Modelling conventions:
* a TensorFlow ragged tensor with one ragged dimension is a batch
  `List (List a)` of rows; its flat values are `List.flatten`, its
  row lengths, row splits and value row-ids are defined below following
  TensorFlow semantics;
* machine integers are `Int`/`Nat`; floating point values are `Rat`;
* fallible code returns `Except`/`Option`.
-/

/- ===== TensorFlow ragged-tensor primitives (tf.RaggedTensor) ===== -/

/-- Row lengths of a ragged tensor: tf.RaggedTensor.row_lengths. -/
def rowLengths (xs : List (List α)) : List Nat := xs.map List.length

/-- Row splits of a ragged tensor: tf.RaggedTensor.row_splits, the
cumulative offsets 0, n0, n0+n1, ..., total. -/
def rowSplits : List (List α) → List Nat
  | [] => [0]
  | r :: rs => 0 :: (rowSplits rs).map (fun s => s + r.length)

/-- Row splits with the last entry dropped (python row_splits[:-1]). -/
def rowSplitsInit : List (List α) → List Nat
  | [] => []
  | r :: rs => 0 :: (rowSplitsInit rs).map (fun s => s + r.length)

/-- Row index of every flat value, starting the numbering at k. -/
def valueRowIdsFrom (k : Nat) : List (List α) → List Nat
  | [] => []
  | r :: rs => List.replicate r.length k ++ valueRowIdsFrom (k + 1) rs

/-- Value row ids of a ragged tensor: tf.RaggedTensor.value_rowids, the
row index of every flat value. -/
def valueRowIds (xs : List (List α)) : List Nat := valueRowIdsFrom 0 xs

/-- Reconstruction of a ragged tensor from flat values and row splits:
tf.RaggedTensor.from_row_splits. -/
def fromRowSplits (vals : List α) : List Nat → List (List α)
  | a :: b :: t => ((vals.drop a).take (b - a)) :: fromRowSplits vals (b :: t)
  | _ => []

/-- tf.repeat(data, repeats) for 1-d data: element i of data repeated
repeats[i] times.  TensorFlow raises when the two lengths differ, which
is modelled by `none`. -/
def tfRepeat (data : List α) (reps : List Nat) : Option (List α) :=
  if data.length = reps.length then
    some ((List.zipWith (fun n x => List.replicate n x) reps data).flatten)
  else none

/- ===== kgcnn.layers.ragged.casting ===== -/

/-- CastRaggedToValues.call from kgcnn/layers/ragged/casting.py:
returns the pair of flat values and the partition tensor selected by
partition_type, and raises TypeError on an unknown partition_type. -/
def castRaggedToValues (partition_type : String) (inputs : List (List α)) :
    Except String (List α × List Nat) :=
  let tens := inputs
  let flat_tens := tens.flatten
  if partition_type = "row_length" then Except.ok (flat_tens, rowLengths tens)
  else if partition_type = "row_splits" then Except.ok (flat_tens, rowSplits tens)
  else if partition_type = "value_rowids" then Except.ok (flat_tens, valueRowIds tens)
  else Except.error "TypeError: Unknown partition scheme"

/-- ChangeIndexing.call from kgcnn/layers/ragged/casting.py: shifts ragged
edge indices between per-sample and per-batch (disjoint) node addressing.
shift2 repeats the node row splits (without the last entry) once per edge
of the corresponding graph; the branch on (to_indexing, from_indexing)
adds it, subtracts it or keeps the values, and the result is rebuilt with
the edge row splits.  Unknown index conventions raise TypeError. -/
def changeIndexing (to_indexing from_indexing : String)
    (nod : List (List α)) (edgeind : List (List (Int × Int))) :
    Except String (List (List (Int × Int))) :=
  match tfRepeat (rowSplitsInit nod) (rowLengths edgeind) with
  | none => Except.error "InvalidArgumentError: shape mismatch in tf.repeat"
  | some shift2 =>
    let shift1 := edgeind.flatten
    if to_indexing = "batch" ∧ from_indexing = "sample" then
      Except.ok (fromRowSplits
        (List.zipWith (fun p (s : Nat) => (p.1 + (s : Int), p.2 + (s : Int))) shift1 shift2)
        (rowSplits edgeind))
    else if to_indexing = "sample" ∧ from_indexing = "batch" then
      Except.ok (fromRowSplits
        (List.zipWith (fun p (s : Nat) => (p.1 - (s : Int), p.2 - (s : Int))) shift1 shift2)
        (rowSplits edgeind))
    else if to_indexing = "sample" ∧ from_indexing = "sample" then
      Except.ok (fromRowSplits shift1 (rowSplits edgeind))
    else if to_indexing = "batch" ∧ from_indexing = "batch" then
      Except.ok (fromRowSplits shift1 (rowSplits edgeind))
    else Except.error "TypeError: Unknown index change"

/-- Total number of nodes of the graphs before graph i in the batch,
which is also entry i of the node row splits. -/
def nodesBefore (nod : List (List α)) (i : Nat) : Nat :=
  ((nod.take i).map List.length).sum

/- ===== kgcnn.utils.adj: make_undirected (numpy branch) ===== -/

/-- make_undirected from kgcnn/utils/adj.py, numpy branch: the entrywise
expression (At gt A) * At + (A ge At) * A with At the transpose, where the
comparisons produce 0/1 indicator matrices. -/
def make_undirected (n : Nat) (A : Matrix (Fin n) (Fin n) ℚ) :
    Matrix (Fin n) (Fin n) ℚ :=
  Matrix.of fun i j =>
    (if A j i > A i j then (1 : ℚ) else 0) * A j i +
    (if A i j ≥ A j i then (1 : ℚ) else 0) * A i j

/- ===== helper lemmas on the ragged primitives ===== -/

theorem rowSplits_exists_cons (xs : List (List α)) :
    ∃ t, rowSplits xs = 0 :: t := by
  cases xs with
  | nil => exact ⟨[], rfl⟩
  | cons r rs => exact ⟨_, rfl⟩

theorem fromRowSplits_map_add (vals : List α) (k : Nat) (splits : List Nat) :
    fromRowSplits vals (splits.map (fun s => s + k)) =
      fromRowSplits (vals.drop k) splits := by
  induction splits with
  | nil => rfl
  | cons a t ih =>
    cases t with
    | nil => rfl
    | cons b t' =>
      simp only [List.map_cons, fromRowSplits, List.cons.injEq]
      constructor
      · have h2 : List.drop a (List.drop k vals) = List.drop (a + k) vals := by
          rw [List.drop_drop, Nat.add_comm]
        rw [Nat.add_sub_add_right, h2]
      · exact ih

theorem fromRowSplits_flatten (parts : List (List α)) :
    fromRowSplits parts.flatten (rowSplits parts) = parts := by
  induction parts with
  | nil => rfl
  | cons r rs ih =>
    obtain ⟨t, ht⟩ := rowSplits_exists_cons rs
    rw [rowSplits, ht]
    simp only [List.map_cons, fromRowSplits, List.drop_zero, Nat.zero_add,
      Nat.sub_zero, List.flatten_cons, List.cons.injEq]
    constructor
    · rw [List.take_left]
    · have h3 : r.length :: List.map (fun s => s + r.length) t =
          (0 :: t).map (fun s => s + r.length) := by simp
      rw [h3, ← ht, fromRowSplits_map_add, List.drop_left, ih]

theorem rowSplitsInit_length (xs : List (List α)) :
    (rowSplitsInit xs).length = xs.length := by
  induction xs with
  | nil => rfl
  | cons r rs ih => simp [rowSplitsInit, ih]

theorem rowSplits_congr {xs : List (List α)} {ys : List (List β)}
    (h : rowLengths xs = rowLengths ys) : rowSplits xs = rowSplits ys := by
  induction xs generalizing ys with
  | nil =>
    cases ys with
    | nil => rfl
    | cons y ys => simp [rowLengths] at h
  | cons r rs ih =>
    cases ys with
    | nil => simp [rowLengths] at h
    | cons y ys =>
      simp only [rowLengths, List.map_cons, List.cons.injEq] at h
      rw [rowSplits, rowSplits, ih h.2, h.1]

theorem zipWith_replicate_self (g : α → γ → β) (r : List α) (o : γ) :
    List.zipWith g r (List.replicate r.length o) = r.map (fun a => g a o) := by
  induction r with
  | nil => rfl
  | cons a t ih => simp [List.replicate_succ, ih]

theorem rowLengths_cons (r : List α) (rs : List (List α)) :
    rowLengths (r :: rs) = r.length :: rowLengths rs := rfl

theorem zipWith_flatten_repeat (g : α → γ → β) (parts : List (List α))
    (offs : List γ) (h : parts.length = offs.length) :
    List.zipWith g parts.flatten
      ((List.zipWith (fun n x => List.replicate n x) (rowLengths parts) offs).flatten) =
      (List.zipWith (fun row s => row.map (fun a => g a s)) parts offs).flatten := by
  induction parts generalizing offs with
  | nil => rfl
  | cons r rs ih =>
    cases offs with
    | nil => simp at h
    | cons o os =>
      rw [rowLengths_cons, List.zipWith_cons_cons, List.flatten_cons, List.flatten_cons,
        List.zipWith_cons_cons, List.flatten_cons,
        List.zipWith_append g r rs.flatten (List.replicate r.length o)
          ((List.zipWith (fun n x => List.replicate n x) (rowLengths rs) os).flatten)
          (by simp),
        zipWith_replicate_self, ih os (by simpa using h)]

theorem rowLengths_zipWith_map (f2 : γ → α → β) (xs : List (List α)) (offs : List γ)
    (h : xs.length = offs.length) :
    rowLengths (List.zipWith (fun row s => row.map (f2 s)) xs offs) = rowLengths xs := by
  induction xs generalizing offs with
  | nil => rfl
  | cons r rs ih =>
    cases offs with
    | nil => simp at h
    | cons o os =>
      rw [List.zipWith_cons_cons, rowLengths_cons, rowLengths_cons, List.length_map,
        ih os (by simpa using h)]

theorem changeIndexing_batch_sample_eq (nod : List (List α))
    (edgeind : List (List (Int × Int))) (h : nod.length = edgeind.length) :
    changeIndexing "batch" "sample" nod edgeind =
      Except.ok (List.zipWith
        (fun row (s : Nat) => row.map (fun p => (p.1 + (s : Int), p.2 + (s : Int))))
        edgeind (rowSplitsInit nod)) := by
  have hlen : (rowSplitsInit nod).length = (rowLengths edgeind).length := by
    rw [rowSplitsInit_length, h]; simp [rowLengths]
  have hlen2 : edgeind.length = (rowSplitsInit nod).length := by
    rw [rowSplitsInit_length, h]
  unfold changeIndexing tfRepeat
  rw [if_pos hlen]
  show Except.ok (fromRowSplits
      (List.zipWith (fun p (s : Nat) => (p.1 + (s : Int), p.2 + (s : Int))) edgeind.flatten
        ((List.zipWith (fun n x => List.replicate n x) (rowLengths edgeind)
          (rowSplitsInit nod)).flatten))
      (rowSplits edgeind)) = _
  have hparts : rowSplits (List.zipWith
      (fun row (s : Nat) => row.map (fun p => (p.1 + (s : Int), p.2 + (s : Int))))
      edgeind (rowSplitsInit nod)) = rowSplits edgeind :=
    rowSplits_congr (rowLengths_zipWith_map _ edgeind (rowSplitsInit nod) hlen2)
  rw [zipWith_flatten_repeat _ _ _ hlen2, ← hparts, fromRowSplits_flatten]

theorem changeIndexing_sample_batch_eq (nod : List (List α))
    (edgeind : List (List (Int × Int))) (h : nod.length = edgeind.length) :
    changeIndexing "sample" "batch" nod edgeind =
      Except.ok (List.zipWith
        (fun row (s : Nat) => row.map (fun p => (p.1 - (s : Int), p.2 - (s : Int))))
        edgeind (rowSplitsInit nod)) := by
  have hlen : (rowSplitsInit nod).length = (rowLengths edgeind).length := by
    rw [rowSplitsInit_length, h]; simp [rowLengths]
  have hlen2 : edgeind.length = (rowSplitsInit nod).length := by
    rw [rowSplitsInit_length, h]
  unfold changeIndexing tfRepeat
  rw [if_pos hlen]
  show Except.ok (fromRowSplits
      (List.zipWith (fun p (s : Nat) => (p.1 - (s : Int), p.2 - (s : Int))) edgeind.flatten
        ((List.zipWith (fun n x => List.replicate n x) (rowLengths edgeind)
          (rowSplitsInit nod)).flatten))
      (rowSplits edgeind)) = _
  have hparts : rowSplits (List.zipWith
      (fun row (s : Nat) => row.map (fun p => (p.1 - (s : Int), p.2 - (s : Int))))
      edgeind (rowSplitsInit nod)) = rowSplits edgeind :=
    rowSplits_congr (rowLengths_zipWith_map _ edgeind (rowSplitsInit nod) hlen2)
  rw [zipWith_flatten_repeat _ _ _ hlen2, ← hparts, fromRowSplits_flatten]

theorem changeIndexing_same_eq (nod : List (List α))
    (edgeind : List (List (Int × Int))) (h : nod.length = edgeind.length) :
    changeIndexing "sample" "sample" nod edgeind = Except.ok edgeind ∧
    changeIndexing "batch" "batch" nod edgeind = Except.ok edgeind := by
  have hlen : (rowSplitsInit nod).length = (rowLengths edgeind).length := by
    rw [rowSplitsInit_length, h]; simp [rowLengths]
  constructor
  · unfold changeIndexing tfRepeat
    rw [if_pos hlen]
    show Except.ok (fromRowSplits edgeind.flatten (rowSplits edgeind)) = _
    rw [fromRowSplits_flatten]
  · unfold changeIndexing tfRepeat
    rw [if_pos hlen]
    show Except.ok (fromRowSplits edgeind.flatten (rowSplits edgeind)) = _
    rw [fromRowSplits_flatten]

theorem rowSplitsInit_getElem (nod : List (List α)) (i : Nat)
    (hi : i < (rowSplitsInit nod).length) :
    (rowSplitsInit nod).get ⟨i, hi⟩ = nodesBefore nod i := by
  induction nod generalizing i with
  | nil => simp [rowSplitsInit] at hi
  | cons r rs ih =>
    cases i with
    | zero => rfl
    | succ i =>
      have hi2 : i < (rowSplitsInit rs).length := by
        simpa [rowSplitsInit] using hi
      have hstep : (rowSplitsInit (r :: rs)).get ⟨i + 1, hi⟩ =
          (rowSplitsInit rs).get ⟨i, hi2⟩ + r.length := by
        simp [rowSplitsInit, List.get_eq_getElem]
      rw [hstep, ih i hi2]
      simp only [nodesBefore, List.take_succ_cons, List.map_cons, List.sum_cons]
      omega

theorem zipWith_sub_add_cancel (l : List (List (Int × Int))) (offs : List Nat)
    (h : l.length ≤ offs.length) :
    List.zipWith (fun row (s : Nat) => row.map (fun p => (p.1 - (s : Int), p.2 - (s : Int))))
      (List.zipWith (fun row (s : Nat) => row.map (fun p => (p.1 + (s : Int), p.2 + (s : Int))))
        l offs) offs = l := by
  induction l generalizing offs with
  | nil => simp
  | cons r rs ih =>
    cases offs with
    | nil => simp at h
    | cons o os =>
      simp only [List.zipWith_cons_cons, List.map_map, List.cons.injEq]
      refine ⟨?_, ih os (by simpa using h)⟩
      have : ((fun p => (p.1 - (o : Int), p.2 - (o : Int))) ∘
          fun p => (p.1 + (o : Int), p.2 + (o : Int))) = (fun p => p) := by
        funext p
        simp
      rw [this]
      exact List.map_id r

/-- C1: with to_indexing batch and from_indexing sample, ChangeIndexing
shifts every index pair of graph i by the total node count of the graphs
before i (the node row split i), and the output keeps the edge row
partition of the input. -/
theorem change_indexing_to_batch_spec (nod : List (List α))
    (edgeind : List (List (Int × Int))) (h : nod.length = edgeind.length) :
    ∃ out, changeIndexing "batch" "sample" nod edgeind = Except.ok out ∧
      out.length = edgeind.length ∧
      (∀ i, i < edgeind.length →
        out.getD i [] = (edgeind.getD i []).map
          (fun p => (p.1 + (nodesBefore nod i : Int), p.2 + (nodesBefore nod i : Int)))) ∧
      rowSplits out = rowSplits edgeind := by
  have heq := changeIndexing_batch_sample_eq nod edgeind h
  refine ⟨_, heq, ?_, ?_, ?_⟩
  · rw [List.length_zipWith, rowSplitsInit_length]
    omega
  · intro i hi
    have hz : i < (List.zipWith
        (fun row (s : Nat) => row.map (fun p => (p.1 + (s : Int), p.2 + (s : Int))))
        edgeind (rowSplitsInit nod)).length := by
      rw [List.length_zipWith, rowSplitsInit_length]
      omega
    have hri : i < (rowSplitsInit nod).length := by
      rw [rowSplitsInit_length]
      omega
    rw [List.getD_eq_getElem _ _ hz, List.getD_eq_getElem _ _ hi, List.getElem_zipWith]
    have hval : (rowSplitsInit nod).get ⟨i, hri⟩ = nodesBefore nod i :=
      rowSplitsInit_getElem nod i hri
    simp only [List.get_eq_getElem] at hval
    rw [hval]
  · exact rowSplits_congr (rowLengths_zipWith_map _ edgeind (rowSplitsInit nod)
      (by rw [rowSplitsInit_length]; omega))

/-- C1 witness at a concrete two-graph batch. -/
theorem change_indexing_to_batch_spec_witness :
    ([[0], [1, 2]] : List (List Nat)).length =
      ([[((0 : Int), (0 : Int))], [(0, 1), (1, 0)]] :
        List (List (Int × Int))).length ∧
    (∃ out, changeIndexing "batch" "sample" ([[0], [1, 2]] : List (List Nat))
        [[((0 : Int), (0 : Int))], [(0, 1), (1, 0)]] = Except.ok out ∧
      out.length = ([[((0 : Int), (0 : Int))], [(0, 1), (1, 0)]] :
        List (List (Int × Int))).length ∧
      (∀ i, i < ([[((0 : Int), (0 : Int))], [(0, 1), (1, 0)]] :
          List (List (Int × Int))).length →
        out.getD i [] = (([[((0 : Int), (0 : Int))], [(0, 1), (1, 0)]] :
          List (List (Int × Int))).getD i []).map
          (fun p => (p.1 + (nodesBefore ([[0], [1, 2]] : List (List Nat)) i : Int),
            p.2 + (nodesBefore ([[0], [1, 2]] : List (List Nat)) i : Int)))) ∧
      rowSplits out = rowSplits ([[((0 : Int), (0 : Int))], [(0, 1), (1, 0)]] :
        List (List (Int × Int)))) :=
  ⟨rfl, change_indexing_to_batch_spec [[0], [1, 2]]
    [[((0 : Int), (0 : Int))], [(0, 1), (1, 0)]] rfl⟩

/-- C2: shifting sample to batch and then batch to sample with the same
node tensor restores the original edge indices, and equal to/from
conventions return the input unchanged. -/
theorem change_indexing_roundtrip (nod : List (List α))
    (edgeind : List (List (Int × Int))) (h : nod.length = edgeind.length) :
    Except.bind (changeIndexing "batch" "sample" nod edgeind)
      (fun out => changeIndexing "sample" "batch" nod out) = Except.ok edgeind ∧
    changeIndexing "sample" "sample" nod edgeind = Except.ok edgeind ∧
    changeIndexing "batch" "batch" nod edgeind = Except.ok edgeind := by
  have hsame := changeIndexing_same_eq nod edgeind h
  refine ⟨?_, hsame.1, hsame.2⟩
  rw [changeIndexing_batch_sample_eq nod edgeind h]
  simp only [Except.bind]
  have hlen3 : nod.length = (List.zipWith
      (fun row (s : Nat) => row.map (fun p => (p.1 + (s : Int), p.2 + (s : Int))))
      edgeind (rowSplitsInit nod)).length := by
    rw [List.length_zipWith, rowSplitsInit_length]
    omega
  rw [changeIndexing_sample_batch_eq nod _ hlen3,
    zipWith_sub_add_cancel edgeind (rowSplitsInit nod) (by rw [rowSplitsInit_length]; omega)]

/-- C2 witness at a concrete two-graph batch. -/
theorem change_indexing_roundtrip_witness :
    ([[0], [1, 2]] : List (List Nat)).length =
      ([[((0 : Int), (0 : Int))], [(0, 1), (1, 0)]] :
        List (List (Int × Int))).length ∧
    (Except.bind (changeIndexing "batch" "sample" ([[0], [1, 2]] : List (List Nat))
        [[((0 : Int), (0 : Int))], [(0, 1), (1, 0)]])
      (fun out => changeIndexing "sample" "batch" ([[0], [1, 2]] : List (List Nat)) out) =
        Except.ok [[((0 : Int), (0 : Int))], [(0, 1), (1, 0)]] ∧
    changeIndexing "sample" "sample" ([[0], [1, 2]] : List (List Nat))
        [[((0 : Int), (0 : Int))], [(0, 1), (1, 0)]] =
      Except.ok [[((0 : Int), (0 : Int))], [(0, 1), (1, 0)]] ∧
    changeIndexing "batch" "batch" ([[0], [1, 2]] : List (List Nat))
        [[((0 : Int), (0 : Int))], [(0, 1), (1, 0)]] =
      Except.ok [[((0 : Int), (0 : Int))], [(0, 1), (1, 0)]]) :=
  ⟨rfl, change_indexing_roundtrip [[0], [1, 2]]
    [[((0 : Int), (0 : Int))], [(0, 1), (1, 0)]] rfl⟩

/- ===== C9: make_undirected ===== -/

theorem make_undirected_entry (n : Nat) (A : Matrix (Fin n) (Fin n) ℚ)
    (i j : Fin n) : make_undirected n A i j = max (A i j) (A j i) := by
  simp only [make_undirected, Matrix.of_apply]
  rcases lt_or_le (A i j) (A j i) with hlt | hle
  · rw [if_pos hlt, if_neg (not_le.mpr hlt), one_mul, zero_mul, add_zero,
      max_eq_right hlt.le]
  · rw [if_neg (not_lt.mpr hle), if_pos hle, zero_mul, one_mul, zero_add,
      max_eq_left hle]

/-- C9: make_undirected returns the elementwise maximum of A and its
transpose, its result is symmetric, and it is idempotent. -/
theorem make_undirected_spec (n : Nat) (A : Matrix (Fin n) (Fin n) ℚ) :
    make_undirected n A = Matrix.of (fun i j => max (A i j) (A j i)) ∧
    Matrix.transpose (make_undirected n A) = make_undirected n A ∧
    make_undirected n (make_undirected n A) = make_undirected n A := by
  refine ⟨?_, ?_, ?_⟩
  · ext i j
    rw [make_undirected_entry, Matrix.of_apply]
  · ext i j
    rw [Matrix.transpose_apply, make_undirected_entry, make_undirected_entry, max_comm]
  · ext i j
    rw [make_undirected_entry, make_undirected_entry, make_undirected_entry,
      max_comm (A j i) (A i j), max_self]

/- ===== C4: CastRaggedToValues ===== -/

theorem rowSplits_eq_cumsum (x : List (List α)) :
    rowSplits x = (List.range (x.length + 1)).map
      (fun i => ((x.take i).map List.length).sum) := by
  induction x with
  | nil => rfl
  | cons r rs ih =>
    have hsplit : List.range (rs.length + 1 + 1) =
        0 :: (List.range (rs.length + 1)).map Nat.succ := List.range_succ_eq_map _
    rw [rowSplits, ih, List.map_map]
    conv_rhs => rw [List.length_cons, hsplit, List.map_cons, List.map_map]
    simp only [List.take_zero, List.map_nil, List.sum_nil]
    congr 1
    apply List.map_congr_left
    intro i _
    simp only [Function.comp_apply, List.take_succ_cons, List.map_cons, List.sum_cons]
    omega

theorem valueRowIdsFrom_eq_range (xs : List (List α)) (k : Nat) :
    valueRowIdsFrom k xs = ((List.range xs.length).map
      (fun i => List.replicate (xs.getD i []).length (k + i))).flatten := by
  induction xs generalizing k with
  | nil => rfl
  | cons r rs ih =>
    rw [valueRowIdsFrom, ih (k + 1), List.length_cons, List.range_succ_eq_map]
    simp only [List.map_cons, List.map_map, List.flatten_cons, List.getD_cons_zero,
      Nat.add_zero, List.append_cancel_left_eq]
    congr 1
    apply List.map_congr_left
    intro i _
    simp only [Function.comp_apply, List.getD_cons_succ]
    congr 1
    omega

/-- C4: CastRaggedToValues returns the flat values paired with the row
lengths, the cumulative row splits or the value row-ids according to
partition_type, and raises TypeError on any other partition_type. -/
theorem cast_ragged_to_values_spec (x : List (List Int)) (pt : String)
    (h1 : pt ≠ "row_length") (h2 : pt ≠ "row_splits") (h3 : pt ≠ "value_rowids") :
    castRaggedToValues "row_length" x = Except.ok (x.flatten, x.map List.length) ∧
    castRaggedToValues "row_splits" x = Except.ok (x.flatten,
      (List.range (x.length + 1)).map (fun i => ((x.take i).map List.length).sum)) ∧
    castRaggedToValues "value_rowids" x = Except.ok (x.flatten,
      ((List.range x.length).map
        (fun i => List.replicate (x.getD i []).length i)).flatten) ∧
    ∃ msg, castRaggedToValues pt x = Except.error msg := by
  refine ⟨rfl, ?_, ?_, ?_⟩
  · rw [castRaggedToValues, if_neg (by decide : ¬("row_splits" : String) = "row_length"),
      if_pos rfl, rowSplits_eq_cumsum]
  · rw [castRaggedToValues, if_neg (by decide : ¬("value_rowids" : String) = "row_length"),
      if_neg (by decide : ¬("value_rowids" : String) = "row_splits"), if_pos rfl,
      valueRowIds, valueRowIdsFrom_eq_range]
    simp
  · refine ⟨"TypeError: Unknown partition scheme", ?_⟩
    rw [castRaggedToValues, if_neg h1, if_neg h2, if_neg h3]

/-- C4 witness at a concrete ragged tensor and the partition_type foo. -/
theorem cast_ragged_to_values_spec_witness :
    (("foo" : String) ≠ "row_length" ∧ ("foo" : String) ≠ "row_splits" ∧
      ("foo" : String) ≠ "value_rowids") ∧
    (castRaggedToValues "row_length" ([[1], [2, 3]] : List (List Int)) =
      Except.ok ([1, 2, 3], [1, 2]) ∧
    ∃ msg, castRaggedToValues "foo" ([[1], [2, 3]] : List (List Int)) =
      Except.error msg) := by
  have hth := cast_ragged_to_values_spec ([[1], [2, 3]] : List (List Int)) "foo"
    (by decide) (by decide) (by decide)
  exact ⟨⟨by decide, by decide, by decide⟩, ⟨hth.1, hth.2.2.2⟩⟩

/- ===== C10: kgcnn.utils.adj.precompute_adjacency_scaled ===== -/

/-- Floating point value classified as finite (with its rational value),
positive or negative infinity, or nan; addition and multiplication follow
IEEE semantics (exact rational arithmetic stands in for finite float
arithmetic, which cannot overflow here and keeps the claim about
infinities intact). -/
inductive FpVal where
  | fin (q : ℚ)
  | pinf
  | ninf
  | nan
deriving DecidableEq

namespace FpVal

/-- IEEE multiplication on classified floats. -/
def mul : FpVal → FpVal → FpVal
  | nan, _ => nan
  | _, nan => nan
  | fin a, fin b => fin (a * b)
  | fin a, pinf => if a > 0 then pinf else if a < 0 then ninf else nan
  | fin a, ninf => if a > 0 then ninf else if a < 0 then pinf else nan
  | pinf, fin b => if b > 0 then pinf else if b < 0 then ninf else nan
  | ninf, fin b => if b > 0 then ninf else if b < 0 then pinf else nan
  | pinf, pinf => pinf
  | pinf, ninf => ninf
  | ninf, pinf => ninf
  | ninf, ninf => pinf

/-- IEEE addition on classified floats. -/
def add : FpVal → FpVal → FpVal
  | nan, _ => nan
  | _, nan => nan
  | fin a, fin b => fin (a + b)
  | fin _, pinf => pinf
  | fin _, ninf => ninf
  | pinf, fin _ => pinf
  | ninf, fin _ => ninf
  | pinf, pinf => pinf
  | pinf, ninf => nan
  | ninf, pinf => nan
  | ninf, ninf => ninf

/-- Test for an infinity, np.isinf. -/
def isInf : FpVal → Bool
  | pinf => true
  | ninf => true
  | _ => false

end FpVal

/-- np.power(x, -0.5) on a finite float x: a finite inverse square root
for positive x (Rat.sqrt models the float square root, exactly on perfect
squares), infinity at 0, and nan for negative x. -/
def npPowNegHalf (x : ℚ) : FpVal :=
  if 0 < x then FpVal.fin (1 / Rat.sqrt x)
  else if x = 0 then FpVal.pinf
  else FpVal.nan

/-- Sequential sum of classified floats, as in a numpy reduction. -/
def fpSum (l : List FpVal) : FpVal := l.foldr FpVal.add (FpVal.fin 0)

/-- Matrix product over classified floats, entrywise dot products. -/
def fpMatMul (n : Nat) (M N : Matrix (Fin n) (Fin n) FpVal) :
    Matrix (Fin n) (Fin n) FpVal :=
  Matrix.of fun i j => fpSum ((List.finRange n).map (fun k => FpVal.mul (M i k) (N k j)))

/-- Shared normalization core of precompute_adjacency_scaled from
kgcnn/utils/adj.py: add the identity when requested, form row and column
sums, take the elementwise power -0.5, zero the infinite entries
(d[np.isinf(d)] = 0), build the diagonal matrices and return
Di (A + I) Dj. -/
def scaledAdjCore (n : Nat) (A : Matrix (Fin n) (Fin n) ℚ) (add_identity : Bool) :
    Matrix (Fin n) (Fin n) FpVal :=
  let A1 : Matrix (Fin n) (Fin n) ℚ := if add_identity then A + 1 else A
  let rowsum : Fin n → ℚ := fun i => ∑ j, A1 i j
  let colsum : Fin n → ℚ := fun j => ∑ i, A1 i j
  let d_ii : Fin n → FpVal := fun i =>
    let v := npPowNegHalf (rowsum i)
    if v.isInf then FpVal.fin 0 else v
  let d_jj : Fin n → FpVal := fun j =>
    let v := npPowNegHalf (colsum j)
    if v.isInf then FpVal.fin 0 else v
  let Di : Matrix (Fin n) (Fin n) FpVal :=
    Matrix.of fun i k => if i = k then d_ii i else FpVal.fin 0
  let Dj : Matrix (Fin n) (Fin n) FpVal :=
    Matrix.of fun k j => if k = j then d_jj k else FpVal.fin 0
  fpMatMul n Di (fpMatMul n (A1.map FpVal.fin) Dj)

/-- Input dispatch of precompute_adjacency_scaled: a numpy ndarray, a
scipy csr or coo matrix (modelled by their dense contents), or any other
python object. -/
inductive AdjInput where
  | ndarray (n : Nat) (A : Matrix (Fin n) (Fin n) ℚ)
  | csr (n : Nat) (A : Matrix (Fin n) (Fin n) ℚ)
  | coo (n : Nat) (A : Matrix (Fin n) (Fin n) ℚ)
  | unsupported

/-- precompute_adjacency_scaled from kgcnn/utils/adj.py: ndarray and
sparse branches run the normalization, anything else raises TypeError. -/
def precompute_adjacency_scaled (inp : AdjInput) (add_identity : Bool) :
    Except String ((n : Nat) × Matrix (Fin n) (Fin n) FpVal) :=
  match inp with
  | AdjInput.ndarray n A => Except.ok ⟨n, scaledAdjCore n A add_identity⟩
  | AdjInput.csr n A => Except.ok ⟨n, scaledAdjCore n A add_identity⟩
  | AdjInput.coo n A => Except.ok ⟨n, scaledAdjCore n A add_identity⟩
  | AdjInput.unsupported => Except.error "TypeError: Matrix format not supported"

theorem FpVal.mul_not_inf {a b : FpVal} (ha : a.isInf = false) (hb : b.isInf = false) :
    (FpVal.mul a b).isInf = false := by
  cases a <;> cases b <;> simp_all [FpVal.mul, FpVal.isInf]

theorem FpVal.add_not_inf {a b : FpVal} (ha : a.isInf = false) (hb : b.isInf = false) :
    (FpVal.add a b).isInf = false := by
  cases a <;> cases b <;> simp_all [FpVal.add, FpVal.isInf]

theorem fpSum_not_inf {l : List FpVal} (h : ∀ v ∈ l, v.isInf = false) :
    (fpSum l).isInf = false := by
  induction l with
  | nil => rfl
  | cons a t ih =>
    exact FpVal.add_not_inf (h a (List.mem_cons_self a t))
      (ih (fun v hv => h v (List.mem_cons_of_mem a hv)))

theorem fpMatMul_not_inf {n : Nat} {M N : Matrix (Fin n) (Fin n) FpVal}
    (hM : ∀ i j, (M i j).isInf = false) (hN : ∀ i j, (N i j).isInf = false)
    (i j : Fin n) : (fpMatMul n M N i j).isInf = false := by
  apply fpSum_not_inf
  intro v hv
  obtain ⟨k, _, hk⟩ := List.mem_map.mp hv
  exact hk ▸ FpVal.mul_not_inf (hM i k) (hN k j)

theorem ifInf_zero_not_inf (v : FpVal) :
    (if v.isInf = true then FpVal.fin 0 else v).isInf = false := by
  by_cases h : v.isInf = true
  · rw [if_pos h]
    rfl
  · rw [if_neg h]
    simpa using h

theorem scaledAdjCore_not_inf (n : Nat) (A : Matrix (Fin n) (Fin n) ℚ)
    (add_identity : Bool) (i j : Fin n) :
    (scaledAdjCore n A add_identity i j).isInf = false := by
  apply fpMatMul_not_inf
  · intro i k
    dsimp only [Matrix.of_apply]
    split
    · exact ifInf_zero_not_inf _
    · rfl
  · intro i k
    apply fpMatMul_not_inf
    · intro i2 j2
      simp [Matrix.map_apply, FpVal.isInf]
    · intro i2 j2
      dsimp only [Matrix.of_apply]
      split
      · exact ifInf_zero_not_inf _
      · rfl

/-- C10: the numpy branch of precompute_adjacency_scaled never returns an
infinity, for any adjacency matrix including ones with zero row or column
sums, because infinite inverse square roots are zeroed before the
multiplication; unsupported input types raise TypeError. -/
theorem precompute_adjacency_scaled_total (n : Nat) (A : Matrix (Fin n) (Fin n) ℚ)
    (addI : Bool) :
    (∃ M, precompute_adjacency_scaled (AdjInput.ndarray n A) addI =
        Except.ok ⟨n, M⟩ ∧ ∀ i j, (M i j).isInf = false) ∧
    precompute_adjacency_scaled AdjInput.unsupported addI =
      Except.error "TypeError: Matrix format not supported" :=
  ⟨⟨scaledAdjCore n A addI, rfl, scaledAdjCore_not_inf n A addI⟩, rfl⟩

/- ===== C6: kgcnn.data.moleculenet.MoleculeNetDataset.prepare_data ===== -/

/-- Content of a file in the modelled filesystem: a csv table of named
columns, or a json list of mol-block strings. -/
inductive FileContent where
  | csvFile (cols : List (String × List String))
  | jsonFile (mols : List String)
deriving DecidableEq

/-- Filesystem modelled as an association list from paths to contents;
the most recent write shadows older entries. -/
def FS := List (String × FileContent)

/-- Lookup of a path, os.path.exists and file reading. -/
def fsGet (fs : FS) (p : String) : Option FileContent := List.lookup p fs

/-- Writing a file. -/
def fsPut (fs : FS) (p : String) (c : FileContent) : FS := (p, c) :: fs

/-- Externally visible actions of prepare_data, in order. -/
inductive PrepEffect where
  | readCsv (path : String)
  | convertSmiles (smiles : List String)
  | wroteMolJson (path : String)
deriving DecidableEq

/-- Attributes of a MoleculeNetDataset touched by prepare_data. -/
structure MolNetState where
  file_name : Option String
  data_directory : Option String
  dataset_name : Option String
  data_keys : Option (List String)
deriving DecidableEq

/-- MoleculeNetDataset.mol_filename. -/
def mol_filename : String := "mol.json"

/-- The loop of MoleculeNetDataset._smiles_to_mol_list: one RDKit
conversion (the external function mol1) per smiles string, collected in
order. -/
def smiles_to_mol_list (mol1 : String → String) (smiles : List String) :
    List String := smiles.map mol1

/-- Attribute updates at the top of prepare_data: each of the three names
is overwritten only when the argument is not None. -/
def updateNames (st : MolNetState) (file_name data_directory dataset_name :
    Option String) : MolNetState :=
  { st with
    file_name := file_name.or st.file_name
    data_directory := data_directory.or st.data_directory
    dataset_name := dataset_name.or st.dataset_name }

/-- MoleculeNetDataset.prepare_data from kgcnn/data/moleculenet.py:
updates the name attributes, returns immediately when mol.json already
exists and overwrite is False, and otherwise reads the csv, converts the
smiles column with RDKit (mol1) and writes mol.json.  Python errors
(missing attributes, missing csv, missing column) are Except.error. -/
def prepare_data (mol1 : String → String)
    (file_name data_directory dataset_name : Option String)
    (overwrite : Bool) (smiles_column_name : String)
    (st : MolNetState) (fs : FS) :
    Except String (MolNetState × FS × List PrepEffect) :=
  let st1 := updateNames st file_name data_directory dataset_name
  match st1.data_directory with
  | none => Except.error "TypeError: data_directory is None"
  | some dir =>
    let molPath := dir ++ "/" ++ mol_filename
    if (fsGet fs molPath).isSome && !overwrite then
      Except.ok (st1, fs, [])
    else
      match st1.file_name with
      | none => Except.error "TypeError: file_name is None"
      | some fname =>
        let csvPath := dir ++ "/" ++ fname
        match fsGet fs csvPath with
        | some (FileContent.csvFile cols) =>
          match List.lookup smiles_column_name cols with
          | some smiles =>
            let mb := smiles_to_mol_list mol1 smiles
            Except.ok (st1, fsPut fs molPath (FileContent.jsonFile mb),
              [PrepEffect.readCsv csvPath, PrepEffect.convertSmiles smiles,
                PrepEffect.wroteMolJson molPath])
          | none => Except.error "KeyError: smiles column not in csv"
        | _ => Except.error "FileNotFoundError: csv file not found"

/-- C6: when mol.json exists and overwrite is False, prepare_data returns
self having touched only the three name attributes, with the filesystem
unchanged and no csv read, no smiles conversion and no write; when the
file is absent or overwrite is True, it reads the csv, converts the
smiles column and writes mol.json. -/
theorem prepare_data_spec (mol1 : String → String) (st : MolNetState) (fs : FS)
    (fn dd dn : Option String) (sc : String) (dir : String)
    (hdir : dd.or st.data_directory = some dir) :
    ((fsGet fs (dir ++ "/" ++ mol_filename)).isSome = true →
      prepare_data mol1 fn dd dn false sc st fs =
        Except.ok (updateNames st fn dd dn, fs, [])) ∧
    (∀ (ow : Bool) (fname : String) (cols : List (String × List String))
        (smiles : List String),
      fn.or st.file_name = some fname →
      fsGet fs (dir ++ "/" ++ fname) = some (FileContent.csvFile cols) →
      List.lookup sc cols = some smiles →
      (fsGet fs (dir ++ "/" ++ mol_filename) = none ∨ ow = true) →
      prepare_data mol1 fn dd dn ow sc st fs =
        Except.ok (updateNames st fn dd dn,
          fsPut fs (dir ++ "/" ++ mol_filename)
            (FileContent.jsonFile (smiles_to_mol_list mol1 smiles)),
          [PrepEffect.readCsv (dir ++ "/" ++ fname),
            PrepEffect.convertSmiles smiles,
            PrepEffect.wroteMolJson (dir ++ "/" ++ mol_filename)])) := by
  have hdd : (updateNames st fn dd dn).data_directory = some dir := hdir
  constructor
  · intro hex
    rw [prepare_data]
    rw [hdd]
    simp only [hex, Bool.not_false, Bool.and_true]
    rfl
  · intro ow fname cols smiles hfn hcsv hcol hcond
    have hguard : ((fsGet fs (dir ++ "/" ++ mol_filename)).isSome && !ow) = false := by
      rcases hcond with hnone | htrue
      · rw [hnone]
        rfl
      · rw [htrue]
        simp
    rw [prepare_data]
    rw [hdd]
    simp only [hguard, Bool.false_eq_true, if_false]
    have hfn2 : (updateNames st fn dd dn).file_name = some fname := hfn
    rw [hfn2]
    simp only [hcsv, hcol]

/-- Concrete dataset state for the C6 witness. -/
def c6St : MolNetState :=
  { file_name := some "data.csv", data_directory := some "dir",
    dataset_name := some "Lipop", data_keys := none }

/-- Concrete filesystem for the C6 witness: mol.json already present. -/
def c6Fs : FS :=
  [("dir/mol.json", FileContent.jsonFile []),
   ("dir/data.csv", FileContent.csvFile [("smiles", ["CCO"])])]

/-- C6 witness at a concrete state and filesystem. -/
theorem prepare_data_spec_witness :
    ((none : Option String).or c6St.data_directory = some "dir") ∧
    (((fsGet c6Fs ("dir" ++ "/" ++ mol_filename)).isSome = true →
      prepare_data id none none none false "smiles" c6St c6Fs =
        Except.ok (updateNames c6St none none none, c6Fs, [])) ∧
    (∀ (ow : Bool) (fname : String) (cols : List (String × List String))
        (smiles : List String),
      (none : Option String).or c6St.file_name = some fname →
      fsGet c6Fs ("dir" ++ "/" ++ fname) = some (FileContent.csvFile cols) →
      List.lookup "smiles" cols = some smiles →
      (fsGet c6Fs ("dir" ++ "/" ++ mol_filename) = none ∨ ow = true) →
      prepare_data id none none none ow "smiles" c6St c6Fs =
        Except.ok (updateNames c6St none none none,
          fsPut c6Fs ("dir" ++ "/" ++ mol_filename)
            (FileContent.jsonFile (smiles_to_mol_list id smiles)),
          [PrepEffect.readCsv ("dir" ++ "/" ++ fname),
            PrepEffect.convertSmiles smiles,
            PrepEffect.wroteMolJson ("dir" ++ "/" ++ mol_filename)]))) :=
  ⟨rfl, prepare_data_spec id c6St c6Fs none none none "smiles" "dir" rfl⟩

/- ===== C3: train_lipop.py and hyper_lipop.py ===== -/

/-- Python value appearing in a hyper-parameter dictionary. -/
inductive HVal where
  | hstr (s : String)
  | hnum (q : ℚ)
  | hbool (b : Bool)
  | hnone
  | hlist (xs : List HVal)
  | hdict (entries : List (String × HVal))

/-- Dictionary lookup; python raises KeyError when the key is absent,
modelled by none. -/
def HVal.lookup : HVal → String → Option HVal
  | HVal.hdict es, k => List.lookup k es
  | _, _ => none

/-- The DMPNN training section of the hyper dictionary in
training/hyper/hyper_lipop.py (keys fit, compile, cross_validation,
scaler; there is no KFold key). -/
def hyperLipopDMPNNTraining : HVal :=
  HVal.hdict
    [("fit", HVal.hdict
        [("batch_size", HVal.hnum 32), ("epochs", HVal.hnum 300),
         ("validation_freq", HVal.hnum 1), ("verbose", HVal.hnum 2),
         ("callbacks", HVal.hlist [])]),
     ("compile", HVal.hdict
        [("optimizer", HVal.hdict
            [("class_name", HVal.hstr "Adam"),
             ("config", HVal.hdict
                [("lr", HVal.hdict
                    [("class_name", HVal.hstr "ExponentialDecay"),
                     ("config", HVal.hdict
                        [("initial_learning_rate", HVal.hnum 0.001),
                         ("decay_steps", HVal.hnum 5800),
                         ("decay_rate", HVal.hnum 0.5),
                         ("staircase", HVal.hbool false)])])])]),
         ("loss", HVal.hstr "mean_absolute_error")]),
     ("cross_validation", HVal.hdict
        [("class_name", HVal.hstr "KFold"),
         ("config", HVal.hdict
            [("n_splits", HVal.hnum 5), ("random_state", HVal.hnum 42),
             ("shuffle", HVal.hbool true)])]),
     ("scaler", HVal.hdict
        [("class_name", HVal.hstr "StandardScaler"),
         ("config", HVal.hdict
            [("with_std", HVal.hbool true), ("with_mean", HVal.hbool true),
             ("copy", HVal.hbool true)])])]

/-- The DMPNN entry of the hyper dictionary in
training/hyper/hyper_lipop.py, with the model, training, data and info
sections (model config abridged to its scalar keys and input list names;
the training section is complete). -/
def hyperLipopDMPNN : HVal :=
  HVal.hdict
    [("model", HVal.hdict
        [("class_name", HVal.hstr "make_model"),
         ("module_name", HVal.hstr "kgcnn.literature.DMPNN"),
         ("config", HVal.hdict
            [("name", HVal.hstr "DMPNN"),
             ("inputs", HVal.hlist
                [HVal.hstr "node_attributes", HVal.hstr "edge_attributes",
                 HVal.hstr "edge_indices", HVal.hstr "edge_indices_reverse"]),
             ("verbose", HVal.hnum 10), ("depth", HVal.hnum 5),
             ("output_embedding", HVal.hstr "graph")])]),
     ("training", hyperLipopDMPNNTraining),
     ("data", HVal.hdict
        [("dataset", HVal.hdict
            [("class_name", HVal.hstr "LipopDataset"),
             ("module_name", HVal.hstr "kgcnn.data.datasets.LipopDataset"),
             ("config", HVal.hdict [])]),
         ("data_unit", HVal.hstr "")]),
     ("info", HVal.hdict
        [("postfix", HVal.hstr ""), ("postfix_file", HVal.hstr ""),
         ("kgcnn_version", HVal.hstr "2.0.3")])]

/-- Modelled from the spec: DatasetHyperTraining.get_hyper of
kgcnn/hyper/datasets.py is not among the sources; the spec says the
training scripts run with "configurable hyperparameters loaded from
Python dictionaries", so it returns the loaded dictionary entry for the
chosen model name. -/
def get_hyper (hyperAll : HVal) (model_name : String) : Option HVal :=
  hyperAll.lookup model_name

/-- The k_fold_info access of train_lipop.py (line 47):
hyper["training"]["KFold"]; an absent key is a python KeyError, none. -/
def k_fold_info (hyper : HVal) : Option HVal :=
  (hyper.lookup "training").bind (fun t => t.lookup "KFold")

/-- C3: evaluating the training script's hyper-parameter access on the
DMPNN entry of hyper_lipop.py: hyper["training"] exists, the k-fold
configuration is stored under cross_validation, and the KFold lookup the
script performs fails (python KeyError), so the script never reaches the
k-fold training loop with this hyper file. -/
theorem train_lipop_kfold_key_mismatch :
    k_fold_info hyperLipopDMPNN = none ∧
    hyperLipopDMPNN.lookup "training" = some hyperLipopDMPNNTraining ∧
    (hyperLipopDMPNN.lookup "training").bind
        (fun t => t.lookup "cross_validation") =
      some (HVal.hdict
        [("class_name", HVal.hstr "KFold"),
         ("config", HVal.hdict
            [("n_splits", HVal.hnum 5), ("random_state", HVal.hnum 42),
             ("shuffle", HVal.hbool true)])]) :=
  ⟨rfl, rfl, rfl⟩

/- ===== C5, C7: kgcnn.scaler.scaler ===== -/

/-- Configuration of the sklearn StandardScaler, the keys of
get_params/get_config. -/
structure ScalerConfig where
  copy : Bool
  with_mean : Bool
  with_std : Bool
deriving DecidableEq

/-- Value of a fitted sklearn attribute as serialized by
np.array(value).tolist(): python None, an integer count, a float vector,
or a vector of feature names. -/
inductive WVal where
  | wnull
  | wnat (n : Nat)
  | wlist (l : List ℚ)
  | wstrs (l : List String)
deriving DecidableEq

/-- Scaler object: its configuration and its python attribute dictionary
(setattr order preserved); an unfitted scaler has no attributes. -/
structure Scaler where
  config : ScalerConfig
  attrs : List (String × WVal)
deriving DecidableEq

/-- StandardScalerSklearnBase._attributes_list_sklearn. -/
def attributesListSklearn : List String :=
  ["n_features_in_", "mean_", "scale_", "var_", "feature_names_in_", "n_samples_seen_"]

/-- getattr / hasattr. -/
def getAttr (s : Scaler) (k : String) : Option WVal := List.lookup k s.attrs

/-- setattr: replace an existing attribute in place or append a new one
at the end (python attribute dictionaries keep insertion order and have
unique keys). -/
def setAttr : List (String × WVal) → String → WVal → List (String × WVal)
  | [], k, v => [(k, v)]
  | e :: es, k, v => if e.1 == k then (k, v) :: es else e :: setAttr es k v

/-- StandardScalerSklearnBase.get_config (sklearn get_params). -/
def get_config (s : Scaler) : ScalerConfig := s.config

/-- StandardScalerSklearnBase.set_config (sklearn set_params). -/
def set_config (s : Scaler) (c : ScalerConfig) : Scaler := { s with config := c }

/-- StandardScalerSklearnBase.get_weights: every attribute of
_attributes_list_sklearn the scaler has, serialized in list order
(np.array(value).tolist() is the identity in this value model). -/
def get_weights (s : Scaler) : List (String × WVal) :=
  attributesListSklearn.filterMap (fun k => (getAttr s k).map (fun v => (k, v)))

/-- StandardScalerSklearnBase.set_weights: known keys are set as
attributes, unknown keys are only warned about. -/
def set_weights (s : Scaler) (w : List (String × WVal)) : Scaler :=
  { s with
    attrs := w.foldl
               (fun a kv =>
                 if attributesListSklearn.contains kv.1 then setAttr a kv.1 kv.2 else a)
               s.attrs }

/-- os.path.splitext(p)[0] for a path without directory separators: strip
the last extension, where a basename consisting only of leading dots has
no extension. -/
def splitextBase (p : String) : String :=
  let rev := p.toList.reverse
  let extRev := rev.takeWhile (fun c => c ≠ '.')
  if extRev.length = rev.length then p
  else
    let baseRev := rev.drop (extRev.length + 1)
    if baseRev.all (fun c => c = '.') then p
    else String.mk baseRev.reverse

/-- Path that StandardScalerSklearnBase.save actually writes:
os.path.splitext(file_path)[0] + ".json". -/
def savePathOf (p : String) : String := splitextBase p ++ ".json"

/-- Content of the serialized scaler json file. -/
structure ScalerFile where
  class_name : String
  module_name : String
  config : ScalerConfig
  weights : List (String × WVal)
deriving DecidableEq

/-- Filesystem of scaler serialization files. -/
def SFS := List (String × ScalerFile)

/-- File lookup. -/
def sfsGet (fs : SFS) (p : String) : Option ScalerFile := List.lookup p fs

/-- File write. -/
def sfsPut (fs : SFS) (p : String) (f : ScalerFile) : SFS := (p, f) :: fs

/-- StandardScalerSklearnBase.save: write class name, module name, config
and weights to splitext(file_path)[0] + ".json". -/
def saveScaler (s : Scaler) (cname mname : String) (p : String) (fs : SFS) : SFS :=
  sfsPut fs (savePathOf p)
    { class_name := cname, module_name := mname,
      config := get_config s, weights := get_weights s }

/-- StandardScalerSklearnBase.load: read file_path as given (no extension
handling), then set_config and set_weights; a missing file is a python
FileNotFoundError, none. -/
def loadScaler (s : Scaler) (p : String) (fs : SFS) : Option Scaler :=
  (sfsGet fs p).map (fun f => set_weights (set_config s f.config) f.weights)

/-- A freshly constructed scaler: sklearn defaults copy=True,
with_mean=True, with_std=True, and no fitted attributes. -/
def freshScaler : Scaler :=
  { config := { copy := true, with_mean := true, with_std := true }, attrs := [] }

/-- sklearn StandardScaler.transform: check_is_fitted, subtract mean_
when with_mean, divide by scale_ when with_std. -/
def transform (s : Scaler) (X : List (List ℚ)) : Except String (List (List ℚ)) :=
  if s.attrs.isEmpty then Except.error "NotFittedError: scaler is not fitted"
  else
    let step1 : Except String (List (List ℚ)) :=
      if s.config.with_mean then
        match getAttr s "mean_" with
        | some (WVal.wlist m) =>
          Except.ok (X.map (fun r => List.zipWith (fun a b => a - b) r m))
        | _ => Except.error "TypeError: invalid mean_"
      else Except.ok X
    Except.bind step1 (fun X1 =>
      if s.config.with_std then
        match getAttr s "scale_" with
        | some (WVal.wlist sc) =>
          Except.ok (X1.map (fun r => List.zipWith (fun a b => a / b) r sc))
        | _ => Except.error "TypeError: invalid scale_"
      else Except.ok X1)

/-- sklearn StandardScaler.inverse_transform: check_is_fitted, multiply
by scale_ when with_std, add mean_ when with_mean. -/
def inverse_transform (s : Scaler) (X : List (List ℚ)) :
    Except String (List (List ℚ)) :=
  if s.attrs.isEmpty then Except.error "NotFittedError: scaler is not fitted"
  else
    let step1 : Except String (List (List ℚ)) :=
      if s.config.with_std then
        match getAttr s "scale_" with
        | some (WVal.wlist sc) =>
          Except.ok (X.map (fun r => List.zipWith (fun a b => a * b) r sc))
        | _ => Except.error "TypeError: invalid scale_"
      else Except.ok X
    Except.bind step1 (fun X1 =>
      if s.config.with_mean then
        match getAttr s "mean_" with
        | some (WVal.wlist m) =>
          Except.ok (X1.map (fun r => List.zipWith (fun a b => a + b) r m))
        | _ => Except.error "TypeError: invalid mean_"
      else Except.ok X1)

/-- Attribute dictionary of a scaler after an sklearn fit: the attributes
of _attributes_list_sklearn in their insertion order, with
feature_names_in_ present only for dataframe inputs. -/
def fittedAttrs (nf : Nat) (mv sv vv : WVal) (ns : Nat)
    (fns : Option (List String)) : List (String × WVal) :=
  [("n_features_in_", WVal.wnat nf), ("mean_", mv), ("scale_", sv), ("var_", vv)] ++
  (match fns with
   | some l => [("feature_names_in_", WVal.wstrs l)]
   | none => []) ++
  [("n_samples_seen_", WVal.wnat ns)]

theorem loadScaler_saveScaler (s : Scaler) (cname mname p : String) (fs : SFS)
    (hp : savePathOf p = p) :
    loadScaler freshScaler p (saveScaler s cname mname p fs) =
      some (set_weights (set_config freshScaler (get_config s)) (get_weights s)) := by
  rw [loadScaler, saveScaler, hp]
  simp [sfsGet, sfsPut, List.lookup]

theorem set_weights_fittedAttrs (cfg cfg2 : ScalerConfig) (nf ns : Nat)
    (mv sv vv : WVal) (fns : Option (List String)) :
    set_weights (set_config freshScaler cfg)
        (get_weights { config := cfg2, attrs := fittedAttrs nf mv sv vv ns fns }) =
      { config := cfg, attrs := fittedAttrs nf mv sv vv ns fns } := by
  cases fns <;> rfl

/-- C5 counterexample: save writes splitext(file_path)[0] + ".json", but
load reads file_path itself, so with file_path w.npz the file is written
to w.json and load(w.npz) fails with FileNotFoundError instead of
restoring the scaler. -/
theorem scaler_save_load_counterexample :
    savePathOf "w.npz" = "w.json" ∧
    loadScaler freshScaler "w.npz"
      (saveScaler
        { config := { copy := true, with_mean := true, with_std := true },
          attrs := fittedAttrs 1 (WVal.wlist [3]) (WVal.wlist [2])
            (WVal.wlist [4]) 5 none }
        "StandardScaler" "kgcnn.scaler.scaler" "w.npz" []) = none := by
  exact ⟨rfl, rfl⟩

/-- C5 amended: when the path save writes equals file_path (file_path
already ends in a .json extension), saving a fitted scaler and loading
from the same path on a freshly constructed scaler restores the
configuration and every fitted attribute of _attributes_list_sklearn, so
transform and inverse_transform of the restored scaler agree with the
original on every input. -/
theorem scaler_save_load_roundtrip (cfg : ScalerConfig) (nf ns : Nat)
    (mv sv vv : WVal) (fns : Option (List String)) (cname mname p : String)
    (fs : SFS) (hp : savePathOf p = p) :
    ∃ s2, loadScaler freshScaler p
        (saveScaler { config := cfg, attrs := fittedAttrs nf mv sv vv ns fns }
          cname mname p fs) = some s2 ∧
      get_config s2 = cfg ∧
      get_weights s2 =
        get_weights { config := cfg, attrs := fittedAttrs nf mv sv vv ns fns } ∧
      (∀ X, transform s2 X =
        transform { config := cfg, attrs := fittedAttrs nf mv sv vv ns fns } X) ∧
      (∀ X, inverse_transform s2 X =
        inverse_transform { config := cfg, attrs := fittedAttrs nf mv sv vv ns fns } X) := by
  refine ⟨{ config := cfg, attrs := fittedAttrs nf mv sv vv ns fns }, ?_, rfl, rfl,
    fun X => rfl, fun X => rfl⟩
  rw [loadScaler_saveScaler _ _ _ _ _ hp, set_weights_fittedAttrs]
  rfl

/-- C5 witness at the path scaler.json and a concrete fitted scaler. -/
theorem scaler_save_load_roundtrip_witness :
    savePathOf "scaler.json" = "scaler.json" ∧
    (∃ s2, loadScaler freshScaler "scaler.json"
        (saveScaler
          { config := { copy := true, with_mean := true, with_std := true },
            attrs := fittedAttrs 1 (WVal.wlist [3]) (WVal.wlist [2])
              (WVal.wlist [4]) 5 none }
          "StandardScaler" "kgcnn.scaler.scaler" "scaler.json" []) = some s2 ∧
      get_config s2 = { copy := true, with_mean := true, with_std := true } ∧
      get_weights s2 = get_weights
        { config := { copy := true, with_mean := true, with_std := true },
          attrs := fittedAttrs 1 (WVal.wlist [3]) (WVal.wlist [2])
            (WVal.wlist [4]) 5 none } ∧
      (∀ X, transform s2 X = transform
        { config := { copy := true, with_mean := true, with_std := true },
          attrs := fittedAttrs 1 (WVal.wlist [3]) (WVal.wlist [2])
            (WVal.wlist [4]) 5 none } X) ∧
      (∀ X, inverse_transform s2 X = inverse_transform
        { config := { copy := true, with_mean := true, with_std := true },
          attrs := fittedAttrs 1 (WVal.wlist [3]) (WVal.wlist [2])
            (WVal.wlist [4]) 5 none } X)) :=
  ⟨rfl, scaler_save_load_roundtrip
    { copy := true, with_mean := true, with_std := true } 1 5
    (WVal.wlist [3]) (WVal.wlist [2]) (WVal.wlist [4]) none
    "StandardScaler" "kgcnn.scaler.scaler" "scaler.json" [] rfl⟩

/- ===== C7: StandardLabelScaler ===== -/

/-- Column j of a data matrix (rows of samples). -/
def colOf (y : List (List ℚ)) (j : Nat) : List ℚ := y.map (fun r => r.getD j 0)

/-- Per-column means of a data matrix. -/
def colMeans (y : List (List ℚ)) : List ℚ :=
  (List.range (y.headD []).length).map (fun j => (colOf y j).sum / (y.length : ℚ))

/-- Per-column population variances of a data matrix. -/
def colVars (y : List (List ℚ)) : List ℚ :=
  (List.range (y.headD []).length).map (fun j =>
    ((colOf y j).map
      (fun v => (v - (colOf y j).sum / (y.length : ℚ)) ^ 2)).sum / (y.length : ℚ))

/-- sklearn _handle_zeros_in_scale: a zero scale becomes one. -/
def handleZeros (x : ℚ) : ℚ := if x = 0 then 1 else x

/-- Standard deviation used for scale_: _handle_zeros_in_scale(sqrt(var)).
Rat.sqrt models the float square root; it is exact on perfect squares. -/
def stdOfVar (v : ℚ) : ℚ := handleZeros (Rat.sqrt v)

/-- sklearn StandardScaler.partial_fit on an array: the first batch sets
n_features_in_, mean_, var_, scale_ and n_samples_seen_ from the batch
statistics (var_ and scale_ are None without with_std); later batches
merge by the incremental mean/variance update of Chan et al. -/
def sklearnPartialFit (s : Scaler) (X : List (List ℚ)) : Scaler :=
  match getAttr s "n_samples_seen_" with
  | none =>
    let bm := colMeans X
    let bv := colVars X
    let a1 := setAttr s.attrs "n_features_in_" (WVal.wnat (X.headD []).length)
    let a2 := setAttr a1 "mean_" (WVal.wlist bm)
    let a3 := setAttr a2 "var_"
      (if s.config.with_std then WVal.wlist bv else WVal.wnull)
    let a4 := setAttr a3 "scale_"
      (if s.config.with_std then WVal.wlist (bv.map stdOfVar) else WVal.wnull)
    let a5 := setAttr a4 "n_samples_seen_" (WVal.wnat X.length)
    { s with attrs := a5 }
  | some (WVal.wnat nprev) =>
    let m := X.length
    let bm := colMeans X
    let bv := colVars X
    let pm := match getAttr s "mean_" with | some (WVal.wlist l) => l | _ => []
    let pv := match getAttr s "var_" with | some (WVal.wlist l) => l | _ => []
    let nn := nprev + m
    let nm := (List.range pm.length).map (fun j =>
      ((nprev : ℚ) * pm.getD j 0 + (m : ℚ) * bm.getD j 0) / (nn : ℚ))
    let nv := (List.range pm.length).map (fun j =>
      (pv.getD j 0 * (nprev : ℚ) + bv.getD j 0 * (m : ℚ) +
        (pm.getD j 0 - bm.getD j 0) ^ 2 * (nprev : ℚ) * (m : ℚ) / (nn : ℚ)) / (nn : ℚ))
    let a2 := setAttr s.attrs "mean_" (WVal.wlist nm)
    let a3 := setAttr a2 "var_"
      (if s.config.with_std then WVal.wlist nv else WVal.wnull)
    let a4 := setAttr a3 "scale_"
      (if s.config.with_std then WVal.wlist (nv.map stdOfVar) else WVal.wnull)
    let a5 := setAttr a4 "n_samples_seen_" (WVal.wnat nn)
    { s with attrs := a5 }
  | some _ => s

/-- sklearn BaseEstimator._reset of StandardScaler: when scale_ exists,
delete scale_, n_samples_seen_, mean_ and var_. -/
def scalerReset (s : Scaler) : Scaler :=
  if (getAttr s "scale_").isSome then
    { s with attrs := s.attrs.filter (fun e =>
        !(e.1 == "scale_" || e.1 == "n_samples_seen_" || e.1 == "mean_" || e.1 == "var_")) }
  else s

/-- StandardLabelScaler.partial_fit: _assert_has_y raises ValueError on a
missing y; otherwise the sklearn partial_fit runs on y (X is passed as
None to sklearn, i.e. ignored). -/
def label_partial_fit (s : Scaler) (y X : Option (List (List ℚ))) :
    Except String Scaler :=
  match y with
  | none => Except.error "ValueError: Require labels in y for StandardLabelScaler"
  | some yd =>
    let _ := X
    Except.ok (sklearnPartialFit s yd)

/-- StandardLabelScaler.fit: _assert_has_y first (before any reset), then
_reset and partial_fit on y. -/
def label_fit (s : Scaler) (y X : Option (List (List ℚ))) :
    Except String Scaler :=
  match y with
  | none => Except.error "ValueError: Require labels in y for StandardLabelScaler"
  | some yd => label_partial_fit (scalerReset s) (some yd) X

/-- StandardLabelScaler.transform: the sklearn transform applied to the y
argument (X is ignored); sklearn rejects a missing array. -/
def label_transform (s : Scaler) (y X : Option (List (List ℚ))) :
    Except String (List (List ℚ)) :=
  match y with
  | none => Except.error "ValueError: array y is None"
  | some yd =>
    let _ := X
    transform s yd

/-- StandardLabelScaler.inverse_transform: the sklearn inverse_transform
applied to the y argument (X is ignored). -/
def label_inverse_transform (s : Scaler) (y X : Option (List (List ℚ))) :
    Except String (List (List ℚ)) :=
  match y with
  | none => Except.error "ValueError: array y is None"
  | some yd =>
    let _ := X
    inverse_transform s yd

theorem lookup_setAttr_self (attrs : List (String × WVal)) (k : String) (v : WVal) :
    List.lookup k (setAttr attrs k v) = some v := by
  induction attrs with
  | nil => simp [setAttr, List.lookup]
  | cons e es ih =>
    rw [setAttr]
    by_cases h : (e.1 == k) = true
    · rw [if_pos h]
      simp [List.lookup]
    · rw [if_neg h]
      have h2 : (k == e.1) = false := by
        rw [beq_eq_false_iff_ne]
        intro hk
        exact h (by rw [beq_iff_eq]; exact hk.symm)
      rw [List.lookup, h2, ih]

theorem lookup_setAttr_ne (attrs : List (String × WVal)) (k k2 : String)
    (v : WVal) (h : k ≠ k2) :
    List.lookup k (setAttr attrs k2 v) = List.lookup k attrs := by
  have hkk2 : (k == k2) = false := beq_eq_false_iff_ne.mpr h
  induction attrs with
  | nil => simp [setAttr, List.lookup, hkk2]
  | cons e es ih =>
    rw [setAttr]
    by_cases he : (e.1 == k2) = true
    · rw [if_pos he]
      have he2 : e.1 = k2 := by rwa [beq_iff_eq] at he
      have h3 : (k == e.1) = false := by rw [he2]; exact hkk2
      rw [List.lookup, hkk2, List.lookup, h3]
    · rw [if_neg he]
      rw [List.lookup, List.lookup, ih]

/-- C7: StandardLabelScaler.fit and partial_fit raise ValueError when y
is None (before any reset, so the state is untouched), ignore the X
argument when y is given, fit the per-column mean and standard deviation
of y, and transform and inverse_transform operate on the y argument. -/
theorem standard_label_scaler_spec (s : Scaler) (X X2 : Option (List (List ℚ)))
    (yd : List (List ℚ))
    (hfresh : getAttr (scalerReset s) "n_samples_seen_" = none) :
    label_fit s none X =
      Except.error "ValueError: Require labels in y for StandardLabelScaler" ∧
    label_partial_fit s none X =
      Except.error "ValueError: Require labels in y for StandardLabelScaler" ∧
    label_fit s (some yd) X = label_fit s (some yd) X2 ∧
    label_partial_fit s (some yd) X = label_partial_fit s (some yd) X2 ∧
    (∃ s2, label_fit s (some yd) X = Except.ok s2 ∧
      getAttr s2 "mean_" = some (WVal.wlist (colMeans yd)) ∧
      (s.config.with_std = true →
        getAttr s2 "scale_" = some (WVal.wlist ((colVars yd).map stdOfVar)))) ∧
    label_transform s (some yd) X = transform s yd ∧
    label_inverse_transform s (some yd) X = inverse_transform s yd := by
  refine ⟨rfl, rfl, rfl, rfl, ?_, rfl, rfl⟩
  refine ⟨sklearnPartialFit (scalerReset s) yd, rfl, ?_, ?_⟩
  · rw [sklearnPartialFit, hfresh]
    simp only [getAttr]
    rw [lookup_setAttr_ne _ _ _ _ (by decide), lookup_setAttr_ne _ _ _ _ (by decide),
      lookup_setAttr_ne _ _ _ _ (by decide), lookup_setAttr_self]
  · intro hstd
    rw [sklearnPartialFit, hfresh]
    simp only [getAttr]
    rw [lookup_setAttr_ne _ _ _ _ (by decide), lookup_setAttr_self]
    have hcfg : (scalerReset s).config = s.config := by
      rw [scalerReset]
      split <;> rfl
    rw [hcfg, hstd, if_pos rfl]

/-- C7 witness at a fresh scaler and the concrete labels [[1], [5]]. -/
theorem standard_label_scaler_spec_witness :
    getAttr (scalerReset freshScaler) "n_samples_seen_" = none ∧
    (label_fit freshScaler none none =
      Except.error "ValueError: Require labels in y for StandardLabelScaler" ∧
    label_partial_fit freshScaler none none =
      Except.error "ValueError: Require labels in y for StandardLabelScaler" ∧
    label_fit freshScaler (some [[1], [5]]) none =
      label_fit freshScaler (some [[1], [5]]) (some [[9]]) ∧
    label_partial_fit freshScaler (some [[1], [5]]) none =
      label_partial_fit freshScaler (some [[1], [5]]) (some [[9]]) ∧
    (∃ s2, label_fit freshScaler (some [[1], [5]]) none = Except.ok s2 ∧
      getAttr s2 "mean_" = some (WVal.wlist (colMeans [[1], [5]])) ∧
      (freshScaler.config.with_std = true →
        getAttr s2 "scale_" =
          some (WVal.wlist ((colVars [[1], [5]]).map stdOfVar)))) ∧
    label_transform freshScaler (some [[1], [5]]) none =
      transform freshScaler [[1], [5]] ∧
    label_inverse_transform freshScaler (some [[1], [5]]) none =
      inverse_transform freshScaler [[1], [5]]) :=
  ⟨rfl, standard_label_scaler_spec freshScaler none (some [[9]]) [[1], [5]] rfl⟩

/- ===== C8: kgcnn.data.datasets.mutagenicity.read_in_memory ===== -/

/-- np.split(xs, np.cumsum(lens)[:-1]): parts of the given lengths, the
last part taking the remainder of the array. -/
def npSplit : List Nat → List α → List (List α)
  | [], xs => [xs]
  | [_], xs => [xs]
  | l :: ls, xs => xs.take l :: npSplit ls (xs.drop l)

/-- node_translate of mutagenicity.py: atomic numbers per node label. -/
def node_translate : List Nat := [6, 8, 17, 1, 7, 9, 35, 16, 15, 53, 11, 19, 3, 20]

/-- atoms_translate of mutagenicity.py: atom symbols per node label. -/
def atoms_translate : List String :=
  ["C", "O", "Cl", "H", "N", "F", "Br", "S", "P", "I", "Na", "ksb", "Li", "Ca"]

/-- Whether node j occurs in an edge of the graph (j landed in test_cons). -/
def entryMem (edgeIdx : List (Nat × Nat)) (j : Nat) : Bool :=
  edgeIdx.any (fun p => p.1 = j || p.2 = j)

/-- The is_cons mask of the cleaning loop: connected nodes, plus atoms
allowed to be unconnected (translated numbers 20, 3, 19, 11: Ca, Li, K,
Na). -/
def isConsMask (nats : List Nat) (edgeIdx : List (Nat × Nat)) : List Bool :=
  (List.range nats.length).map (fun j =>
    entryMem edgeIdx j ||
      (nats.getD j 0 = 20 || nats.getD j 0 = 3 || nats.getD j 0 = 19 ||
        nats.getD j 0 = 11))

/-- Boolean-mask selection, numpy arr[mask]. -/
def maskFilter (xs : List α) (mask : List Bool) : List α :=
  (List.zip xs mask).filterMap (fun p => if p.2 then some p.1 else none)

/-- indices_old of the cleaning loop: the new index of every kept node
(its rank among kept nodes), zero for removed nodes. -/
def indicesOld (mask : List Bool) : List Nat :=
  (List.range mask.length).map (fun j =>
    if mask.getD j false then (mask.take j).count true else 0)

/-- One iteration of the cleaning loop of read_in_memory: when some node
is unconnected and not among the allowed atoms, drop the unconnected
nodes and remap the edge indices through indices_old; otherwise keep the
graph unchanged.  Returns (nodes, atoms, edge indices) of the graph. -/
def cleanGraph (nats : List Nat) (atoms_i : List String)
    (edgeIdx : List (Nat × Nat)) : List Nat × List String × List (Nat × Nat) :=
  let mask := isConsMask nats edgeIdx
  if mask.count true ≠ nats.length then
    let iold := indicesOld mask
    (maskFilter nats mask, maskFilter atoms_i mask,
      edgeIdx.map (fun p => (iold.getD p.1 0, iold.getD p.2 0)))
  else (nats, atoms_i, edgeIdx)

/-- The five lists returned by MutagenicityDataset.read_in_memory. -/
structure MutagOut where
  labels : List Int
  nodes : List (List Nat)
  edge_indices : List (List (Nat × Nat))
  edges : List (List Int)
  atoms : List (List String)

/-- MutagenicityDataset.read_in_memory from
kgcnn/data/datasets/mutagenicity.py, after the five files are parsed:
shift the 1-based node ids and graph indicators, split node labels and
edges by graph, translate node labels to atomic numbers and symbols,
turn global edge endpoints into graph-local indices through node_index,
and run the cleaning loop that removes unconnected atoms and remaps the
edge indices. -/
def mutagenicity_read_in_memory (mutag_a : List (Nat × Nat)) (mutag_e : List Int)
    (mutag_gi : List Nat) (mutag_gl : List Int) (mutag_n : List Nat) : MutagOut :=
  let labels := mutag_gl
  let n_data := labels.length
  let mutag_a0 := mutag_a.map (fun p => (p.1 - 1, p.2 - 1))
  let mutag_gi0 := mutag_gi.map (fun x => x - 1)
  let graphlen := (List.range n_data).map (fun g => mutag_gi0.count g)
  let nodes0123 := npSplit graphlen mutag_n
  let nodes := nodes0123.map (fun part => part.map (fun x => node_translate.getD x 0))
  let atoms := nodes0123.map (fun part => part.map (fun x => atoms_translate.getD x ""))
  let graph_id_edge := mutag_a0.map (fun p => mutag_gi0.getD p.1 0)
  let edgelen := (List.range n_data).map (fun g => graph_id_edge.count g)
  let edges := npSplit edgelen (mutag_e.map (fun x => x + 1))
  let node_index := (graphlen.map List.range).flatten
  let edge_indices_flat := mutag_a0.map (fun p =>
    (node_index.getD p.1 0, node_index.getD p.2 0))
  let edge_indices := npSplit edgelen edge_indices_flat
  { labels := (List.range nodes.length).map (fun i => labels.getD i 0)
    nodes := (List.range nodes.length).map (fun i =>
      (cleanGraph (nodes.getD i []) (atoms.getD i []) (edge_indices.getD i [])).1)
    edge_indices := (List.range nodes.length).map (fun i =>
      (cleanGraph (nodes.getD i []) (atoms.getD i []) (edge_indices.getD i [])).2.2)
    edges := (List.range nodes.length).map (fun i => edges.getD i [])
    atoms := (List.range nodes.length).map (fun i =>
      (cleanGraph (nodes.getD i []) (atoms.getD i []) (edge_indices.getD i [])).2.1) }

theorem getD_map_lt (f : α → β) (l : List α) (i : Nat) (hi : i < l.length)
    (d : β) (d2 : α) : (l.map f).getD i d = f (l.getD i d2) := by
  rw [List.getD_eq_getElem _ _ (by simpa using hi), List.getD_eq_getElem _ _ hi,
    List.getElem_map]

theorem getD_range_map (f : Nat → β) (n i : Nat) (hi : i < n) (d : β) :
    ((List.range n).map f).getD i d = f i := by
  rw [getD_map_lt f (List.range n) i (by simpa using hi) d 0]
  congr 1
  rw [List.getD_eq_getElem _ _ (by simpa using hi), List.getElem_range]

theorem getD_range (n i : Nat) (hi : i < n) (d : Nat) :
    (List.range n).getD i d = i := by
  rw [List.getD_eq_getElem _ _ (by simpa using hi), List.getElem_range]

theorem range_map_getD_self (l : List α) (d : α) :
    (List.range l.length).map (fun i => l.getD i d) = l := by
  induction l with
  | nil => rfl
  | cons a t ih =>
    rw [List.length_cons, List.range_succ_eq_map, List.map_cons, List.map_map]
    congr 1

theorem take_eq_range_map_getD (l : List α) (g : Nat) (hg : g ≤ l.length) (d : α) :
    l.take g = (List.range g).map (fun i => l.getD i d) := by
  induction l generalizing g with
  | nil =>
    have hg0 : g = 0 := by simpa using hg
    subst hg0
    rfl
  | cons a t ih =>
    cases g with
    | zero => rfl
    | succ g =>
      rw [List.take_succ_cons, List.range_succ_eq_map, List.map_cons, List.map_map]
      congr 1
      rw [ih g (by simpa using hg)]
      apply List.map_congr_left
      intro i _
      rfl

theorem count_replicate_nat (g b m : Nat) :
    (List.replicate m b).count g = if b = g then m else 0 := by
  induction m with
  | zero => simp
  | succ m ih =>
    rw [List.replicate_succ, List.count_cons, ih]
    by_cases h : b = g
    · rw [if_pos h, if_pos h]
      simp [h]
    · rw [if_neg h, if_neg h]
      have : (b == g) = false := beq_eq_false_iff_ne.mpr h
      simp [this]

theorem count_flatten_canonical (f : Nat → Nat) (n g : Nat) :
    (((List.range n).map (fun g2 => List.replicate (f g2) g2)).flatten).count g =
      if g < n then f g else 0 := by
  induction n with
  | zero => simp
  | succ n ih =>
    rw [List.range_succ, List.map_append, List.flatten_append, List.count_append, ih]
    simp only [List.map_cons, List.map_nil, List.flatten_cons, List.flatten_nil,
      List.append_nil]
    rw [count_replicate_nat]
    by_cases h1 : g < n
    · rw [if_pos h1, if_neg (by omega : ¬ n = g),
        if_pos (show g < n + 1 by omega)]
      omega
    · by_cases h2 : g = n
      · rw [if_neg h1, if_pos h2.symm, if_pos (show g < n + 1 by omega)]
        subst h2
        simp
      · rw [if_neg h1, if_neg (by omega : ¬ n = g),
          if_neg (show ¬ g < n + 1 by omega)]

theorem npSplit_cons2 (l l2 : Nat) (ls : List Nat) (xs : List α) :
    npSplit (l :: l2 :: ls) xs = xs.take l :: npSplit (l2 :: ls) (xs.drop l) := rfl

theorem npSplit_cons_of_ne_nil (l : Nat) (ls : List Nat) (xs : List α)
    (h : ls ≠ []) :
    npSplit (l :: ls) xs = xs.take l :: npSplit ls (xs.drop l) := by
  cases ls with
  | nil => exact absurd rfl h
  | cons a b => rfl

theorem npSplit_length (lens : List Nat) (xs : List α) (h : 1 ≤ lens.length) :
    (npSplit lens xs).length = lens.length := by
  induction lens generalizing xs with
  | nil => simp at h
  | cons l ls ih =>
    cases ls with
    | nil => rfl
    | cons l2 ls2 =>
      rw [npSplit_cons2, List.length_cons, List.length_cons, ih (xs.drop l) (by simp)]

theorem npSplit_getD_length (lens : List Nat) (xs : List α)
    (h1 : xs.length = lens.sum) (i : Nat) (hi : i < lens.length) :
    ((npSplit lens xs).getD i []).length = lens.getD i 0 := by
  induction lens generalizing xs i with
  | nil => simp at hi
  | cons l ls ih =>
    cases ls with
    | nil =>
      cases i with
      | zero => simpa using h1
      | succ i => simp at hi
    | cons l2 ls2 =>
      rw [npSplit_cons2]
      cases i with
      | zero =>
        simp only [List.getD_cons_zero, List.length_take]
        simp only [List.sum_cons] at h1
        omega
      | succ i =>
        rw [List.getD_cons_succ, List.getD_cons_succ]
        apply ih
        · rw [List.length_drop]
          simp only [List.sum_cons] at h1 ⊢
          omega
        · simpa using hi

theorem npSplit_flatten (parts : List (List α)) (h : 1 ≤ parts.length) :
    npSplit (parts.map List.length) parts.flatten = parts := by
  induction parts with
  | nil => simp at h
  | cons p ps ih =>
    cases ps with
    | nil => simp [npSplit]
    | cons q ps2 =>
      rw [List.map_cons, List.flatten_cons,
        npSplit_cons_of_ne_nil _ _ _ (by simp), List.take_left,
        List.drop_left, ih (by simp)]

theorem flatten_getD (parts : List (List α)) (i : Nat) (hi : i < parts.length)
    (j : Nat) (hj : j < (parts.getD i []).length) (d : α) :
    (parts.flatten).getD (nodesBefore parts i + j) d = (parts.getD i []).getD j d := by
  induction parts generalizing i with
  | nil => simp at hi
  | cons p ps ih =>
    cases i with
    | zero =>
      simp only [List.getD_cons_zero] at hj ⊢
      have hz : nodesBefore (p :: ps) 0 = 0 := rfl
      rw [hz, Nat.zero_add, List.flatten_cons,
        List.getD_eq_getElem _ _ (by rw [List.length_append]; omega),
        List.getD_eq_getElem _ _ hj, List.getElem_append_left hj]
    | succ i =>
      have hstep : nodesBefore (p :: ps) (i + 1) = p.length + nodesBefore ps i := by
        simp only [nodesBefore, List.take_succ_cons, List.map_cons, List.sum_cons]
      rw [List.getD_cons_succ] at hj ⊢
      rw [hstep, List.flatten_cons, Nat.add_assoc]
      rw [← ih i (by simpa using hi) hj]
      rcases Nat.lt_or_ge (nodesBefore ps i + j) ps.flatten.length with hlt | hge
      · rw [List.getD_eq_getElem _ _ (by rw [List.length_append]; omega),
          List.getD_eq_getElem _ _ hlt]
        rw [List.getElem_append_right (by omega)]
        congr 1
        omega
      · rw [List.getD_eq_default _ _ (by rw [List.length_append]; omega),
          List.getD_eq_default _ _ hge]

theorem maskFilter_length (xs : List α) (mask : List Bool)
    (h : mask.length = xs.length) :
    (maskFilter xs mask).length = mask.count true := by
  induction xs generalizing mask with
  | nil =>
    cases mask with
    | nil => rfl
    | cons b ms => simp at h
  | cons x xs ih =>
    cases mask with
    | nil => simp at h
    | cons b ms =>
      rw [maskFilter, List.zip_cons_cons, List.filterMap_cons, List.count_cons]
      cases b with
      | false =>
        have hrec := ih ms (by simpa using h)
        rw [maskFilter] at hrec
        simp [hrec]
      | true =>
        have hrec := ih ms (by simpa using h)
        rw [maskFilter] at hrec
        simp [hrec]

theorem rank_lt_count (mask : List Bool) (j : Nat) (hj : j < mask.length)
    (hm : mask.getD j false = true) :
    (mask.take j).count true < mask.count true := by
  conv_rhs => rw [← List.take_append_drop j mask]
  rw [List.count_append]
  have hdrop : mask.drop j = mask.get ⟨j, hj⟩ :: mask.drop (j + 1) := by
    rw [List.get_eq_getElem]
    exact List.drop_eq_getElem_cons hj
  have hval : mask.get ⟨j, hj⟩ = true := by
    rw [List.get_eq_getElem, ← List.getD_eq_getElem _ false hj]
    exact hm
  have : 0 < (mask.drop j).count true := by
    rw [hdrop, hval, List.count_cons]
    simp
  omega

theorem isConsMask_length (nats : List Nat) (edgeIdx : List (Nat × Nat)) :
    (isConsMask nats edgeIdx).length = nats.length := by
  simp [isConsMask]

theorem isConsMask_getD_true (nats : List Nat) (edgeIdx : List (Nat × Nat))
    (j : Nat) (hj : j < nats.length) (hmem : entryMem edgeIdx j = true) :
    (isConsMask nats edgeIdx).getD j false = true := by
  rw [isConsMask, getD_range_map _ _ _ hj, hmem, Bool.true_or]

theorem indicesOld_getD (mask : List Bool) (j : Nat) (hj : j < mask.length)
    (hm : mask.getD j false = true) :
    (indicesOld mask).getD j 0 = (mask.take j).count true := by
  rw [indicesOld, getD_range_map _ _ _ hj, hm]
  rfl

theorem entryMem_left {edgeIdx : List (Nat × Nat)} {q : Nat × Nat}
    (hq : q ∈ edgeIdx) : entryMem edgeIdx q.1 = true := by
  rw [entryMem, List.any_eq_true]
  exact ⟨q, hq, by simp⟩

theorem entryMem_right {edgeIdx : List (Nat × Nat)} {q : Nat × Nat}
    (hq : q ∈ edgeIdx) : entryMem edgeIdx q.2 = true := by
  rw [entryMem, List.any_eq_true]
  exact ⟨q, hq, by simp⟩

theorem cleanGraph_inrange (nats : List Nat) (atoms_i : List String)
    (edgeIdx : List (Nat × Nat))
    (hedge : ∀ p ∈ edgeIdx, p.1 < nats.length ∧ p.2 < nats.length) :
    ∀ p ∈ (cleanGraph nats atoms_i edgeIdx).2.2,
      p.1 < (cleanGraph nats atoms_i edgeIdx).1.length ∧
      p.2 < (cleanGraph nats atoms_i edgeIdx).1.length := by
  intro p hp
  rw [cleanGraph] at hp ⊢
  by_cases hc : (isConsMask nats edgeIdx).count true ≠ nats.length
  · rw [if_pos hc] at hp ⊢
    simp only at hp ⊢
    obtain ⟨q, hq, rfl⟩ := List.mem_map.mp hp
    obtain ⟨hq1, hq2⟩ := hedge q hq
    have hml := isConsMask_length nats edgeIdx
    have hm1 : (isConsMask nats edgeIdx).getD q.1 false = true :=
      isConsMask_getD_true nats edgeIdx q.1 hq1 (entryMem_left hq)
    have hm2 : (isConsMask nats edgeIdx).getD q.2 false = true :=
      isConsMask_getD_true nats edgeIdx q.2 hq2 (entryMem_right hq)
    rw [maskFilter_length nats _ hml]
    constructor
    · rw [indicesOld_getD _ _ (by omega) hm1]
      exact rank_lt_count _ _ (by omega) hm1
    · rw [indicesOld_getD _ _ (by omega) hm2]
      exact rank_lt_count _ _ (by omega) hm2
  · rw [if_neg hc] at hp ⊢
    exact hedge p hp

theorem nodesBefore_range_map (h : Nat → List α) (n g : Nat) (hg : g ≤ n) :
    nodesBefore ((List.range n).map h) g =
      ((List.range g).map (fun g2 => (h g2).length)).sum := by
  rw [nodesBefore, List.map_take, List.map_map, ← List.map_take, List.take_range,
    Nat.min_eq_left hg]
  rfl

theorem flatten_getD_canonical (h : Nat → List α) (n g j : Nat) (hg : g < n)
    (hj : j < (h g).length) (d : α) :
    (((List.range n).map h).flatten).getD
      (((List.range g).map (fun g2 => (h g2).length)).sum + j) d =
      (h g).getD j d := by
  have hlt : g < ((List.range n).map h).length := by simpa using hg
  have hj2 : j < (((List.range n).map h).getD g []).length := by
    rw [getD_range_map _ _ _ hg]
    exact hj
  have hres := flatten_getD ((List.range n).map h) g hlt j hj2 d
  rw [getD_range_map _ _ _ hg] at hres
  rw [← nodesBefore_range_map h n g hg.le]
  exact hres

theorem mutag_gi0_eq (mutag_gi : List Nat) (mutag_gl : List Int) (lens : List Nat)
    (hgi : mutag_gi = ((List.range mutag_gl.length).map
      (fun g => List.replicate (lens.getD g 0) (g + 1))).flatten) :
    mutag_gi.map (fun x => x - 1) =
      ((List.range mutag_gl.length).map
        (fun g => List.replicate (lens.getD g 0) g)).flatten := by
  rw [hgi, List.map_flatten, List.map_map]
  congr 1
  apply List.map_congr_left
  intro g _
  simp [List.map_replicate]

theorem mutag_graphlen_eq (mutag_gi : List Nat) (mutag_gl : List Int)
    (lens : List Nat) (hlen : lens.length = mutag_gl.length)
    (hgi : mutag_gi = ((List.range mutag_gl.length).map
      (fun g => List.replicate (lens.getD g 0) (g + 1))).flatten) :
    (List.range mutag_gl.length).map
      (fun g => (mutag_gi.map (fun x => x - 1)).count g) = lens := by
  rw [List.map_congr_left (fun g hg => by
    rw [mutag_gi0_eq mutag_gi mutag_gl lens hgi, count_flatten_canonical,
      if_pos (List.mem_range.mp hg)])]
  rw [← hlen]
  exact range_map_getD_self lens 0

theorem mutag_a0_eq (mutag_a : List (Nat × Nat)) (mutag_gl : List Int)
    (lens : List Nat) (E : List (List (Nat × Nat)))
    (ha : mutag_a = ((List.range mutag_gl.length).map
      (fun g => (E.getD g []).map
        (fun p => ((lens.take g).sum + p.1 + 1, (lens.take g).sum + p.2 + 1)))).flatten) :
    mutag_a.map (fun p => (p.1 - 1, p.2 - 1)) =
      ((List.range mutag_gl.length).map
        (fun g => (E.getD g []).map
          (fun p => ((lens.take g).sum + p.1, (lens.take g).sum + p.2)))).flatten := by
  rw [ha, List.map_flatten, List.map_map]
  congr 1
  apply List.map_congr_left
  intro g _
  simp only [Function.comp_apply, List.map_map]
  apply List.map_congr_left
  intro p _
  simp

theorem mutag_gi0_getD (mutag_gi : List Nat) (mutag_gl : List Int)
    (lens : List Nat) (hlen : lens.length = mutag_gl.length)
    (hgi : mutag_gi = ((List.range mutag_gl.length).map
      (fun g => List.replicate (lens.getD g 0) (g + 1))).flatten)
    (g : Nat) (hg : g < mutag_gl.length) (j : Nat) (hj : j < lens.getD g 0) :
    (mutag_gi.map (fun x => x - 1)).getD ((lens.take g).sum + j) 0 = g := by
  rw [mutag_gi0_eq mutag_gi mutag_gl lens hgi]
  have hsum : (lens.take g).sum = ((List.range g).map
      (fun g2 => (List.replicate (lens.getD g2 0) g2).length)).sum := by
    simp only [List.length_replicate]
    rw [take_eq_range_map_getD lens g (by omega) 0]
  rw [hsum, flatten_getD_canonical _ _ _ _ hg (by simpa using hj)]
  rw [List.getD_eq_getElem _ _ (by simpa using hj), List.getElem_replicate]

theorem mutag_graph_id_edge_eq (mutag_a : List (Nat × Nat)) (mutag_gi : List Nat)
    (mutag_gl : List Int) (lens : List Nat) (E : List (List (Nat × Nat)))
    (hlen : lens.length = mutag_gl.length)
    (hgi : mutag_gi = ((List.range mutag_gl.length).map
      (fun g => List.replicate (lens.getD g 0) (g + 1))).flatten)
    (ha : mutag_a = ((List.range mutag_gl.length).map
      (fun g => (E.getD g []).map
        (fun p => ((lens.take g).sum + p.1 + 1, (lens.take g).sum + p.2 + 1)))).flatten)
    (hbound : ∀ g, g < mutag_gl.length → ∀ p ∈ E.getD g [],
      p.1 < lens.getD g 0 ∧ p.2 < lens.getD g 0) :
    (mutag_a.map (fun p => (p.1 - 1, p.2 - 1))).map
        (fun p => (mutag_gi.map (fun x => x - 1)).getD p.1 0) =
      ((List.range mutag_gl.length).map
        (fun g => List.replicate (E.getD g []).length g)).flatten := by
  rw [mutag_a0_eq mutag_a mutag_gl lens E ha, List.map_flatten, List.map_map]
  congr 1
  apply List.map_congr_left
  intro g hg
  simp only [Function.comp_apply, List.map_map]
  have hpt : ∀ p ∈ E.getD g [],
      ((fun p => (mutag_gi.map (fun x => x - 1)).getD p.1 0) ∘
        (fun p => ((lens.take g).sum + p.1, (lens.take g).sum + p.2))) p = g := by
    intro p hp
    exact mutag_gi0_getD mutag_gi mutag_gl lens hlen hgi g (List.mem_range.mp hg)
      p.1 (hbound g (List.mem_range.mp hg) p hp).1
  rw [List.map_congr_left hpt, List.map_const']

theorem mutag_edgelen_eq (mutag_a : List (Nat × Nat)) (mutag_gi : List Nat)
    (mutag_gl : List Int) (lens : List Nat) (E : List (List (Nat × Nat)))
    (hlen : lens.length = mutag_gl.length)
    (hgi : mutag_gi = ((List.range mutag_gl.length).map
      (fun g => List.replicate (lens.getD g 0) (g + 1))).flatten)
    (ha : mutag_a = ((List.range mutag_gl.length).map
      (fun g => (E.getD g []).map
        (fun p => ((lens.take g).sum + p.1 + 1, (lens.take g).sum + p.2 + 1)))).flatten)
    (hbound : ∀ g, g < mutag_gl.length → ∀ p ∈ E.getD g [],
      p.1 < lens.getD g 0 ∧ p.2 < lens.getD g 0) :
    (List.range mutag_gl.length).map
        (fun g => ((mutag_a.map (fun p => (p.1 - 1, p.2 - 1))).map
          (fun p => (mutag_gi.map (fun x => x - 1)).getD p.1 0)).count g) =
      (List.range mutag_gl.length).map (fun g => (E.getD g []).length) := by
  apply List.map_congr_left
  intro g hg
  rw [mutag_graph_id_edge_eq mutag_a mutag_gi mutag_gl lens E hlen hgi ha hbound,
    count_flatten_canonical, if_pos (List.mem_range.mp hg)]

theorem mutag_node_index_getD (mutag_gi : List Nat) (mutag_gl : List Int)
    (lens : List Nat) (hlen : lens.length = mutag_gl.length)
    (hgi : mutag_gi = ((List.range mutag_gl.length).map
      (fun g => List.replicate (lens.getD g 0) (g + 1))).flatten)
    (g : Nat) (hg : g < mutag_gl.length) (j : Nat) (hj : j < lens.getD g 0) :
    ((((List.range mutag_gl.length).map
        (fun g2 => (mutag_gi.map (fun x => x - 1)).count g2)).map
          List.range).flatten).getD ((lens.take g).sum + j) 0 = j := by
  rw [mutag_graphlen_eq mutag_gi mutag_gl lens hlen hgi]
  have hlm : lens.map List.range =
      (List.range lens.length).map (fun g2 => List.range (lens.getD g2 0)) := by
    conv_lhs => rw [← range_map_getD_self lens 0]
    rw [List.map_map]
    rfl
  rw [hlm, hlen]
  have hsum : (lens.take g).sum = ((List.range g).map
      (fun g2 => (List.range (lens.getD g2 0)).length)).sum := by
    simp only [List.length_range]
    rw [take_eq_range_map_getD lens g (by omega) 0]
  rw [hsum, flatten_getD_canonical _ _ _ _ hg (by simpa using hj),
    getD_range _ _ hj]

theorem mutag_edge_flat_eq (mutag_a : List (Nat × Nat)) (mutag_gi : List Nat)
    (mutag_gl : List Int) (lens : List Nat) (E : List (List (Nat × Nat)))
    (hlen : lens.length = mutag_gl.length)
    (hgi : mutag_gi = ((List.range mutag_gl.length).map
      (fun g => List.replicate (lens.getD g 0) (g + 1))).flatten)
    (ha : mutag_a = ((List.range mutag_gl.length).map
      (fun g => (E.getD g []).map
        (fun p => ((lens.take g).sum + p.1 + 1, (lens.take g).sum + p.2 + 1)))).flatten)
    (hbound : ∀ g, g < mutag_gl.length → ∀ p ∈ E.getD g [],
      p.1 < lens.getD g 0 ∧ p.2 < lens.getD g 0) :
    (mutag_a.map (fun p => (p.1 - 1, p.2 - 1))).map
        (fun p =>
          (((((List.range mutag_gl.length).map
            (fun g2 => (mutag_gi.map (fun x => x - 1)).count g2)).map
              List.range).flatten).getD p.1 0,
           ((((List.range mutag_gl.length).map
            (fun g2 => (mutag_gi.map (fun x => x - 1)).count g2)).map
              List.range).flatten).getD p.2 0)) =
      ((List.range mutag_gl.length).map (fun g => E.getD g [])).flatten := by
  rw [mutag_a0_eq mutag_a mutag_gl lens E ha, List.map_flatten, List.map_map]
  congr 1
  apply List.map_congr_left
  intro g hg
  simp only [Function.comp_apply]
  rw [List.map_map]
  have hpt : ∀ p ∈ E.getD g [],
      ((fun p =>
          (((((List.range mutag_gl.length).map
            (fun g2 => (mutag_gi.map (fun x => x - 1)).count g2)).map
              List.range).flatten).getD p.1 0,
           ((((List.range mutag_gl.length).map
            (fun g2 => (mutag_gi.map (fun x => x - 1)).count g2)).map
              List.range).flatten).getD p.2 0)) ∘
        (fun p => ((lens.take g).sum + p.1, (lens.take g).sum + p.2))) p =
      (fun q => q) p := by
    intro p hp
    have h1 := mutag_node_index_getD mutag_gi mutag_gl lens hlen hgi g
      (List.mem_range.mp hg) p.1 (hbound g (List.mem_range.mp hg) p hp).1
    have h2 := mutag_node_index_getD mutag_gi mutag_gl lens hlen hgi g
      (List.mem_range.mp hg) p.2 (hbound g (List.mem_range.mp hg) p hp).2
    simp only [Function.comp_apply]
    rw [h1, h2]
  rw [List.map_congr_left hpt]
  exact List.map_id _

theorem mutag_edge_indices_eq (mutag_a : List (Nat × Nat)) (_mutag_e : List Int)
    (mutag_gi : List Nat) (mutag_gl : List Int) (lens : List Nat)
    (E : List (List (Nat × Nat)))
    (hlen : lens.length = mutag_gl.length) (hpos : 1 ≤ mutag_gl.length)
    (hgi : mutag_gi = ((List.range mutag_gl.length).map
      (fun g => List.replicate (lens.getD g 0) (g + 1))).flatten)
    (ha : mutag_a = ((List.range mutag_gl.length).map
      (fun g => (E.getD g []).map
        (fun p => ((lens.take g).sum + p.1 + 1, (lens.take g).sum + p.2 + 1)))).flatten)
    (hbound : ∀ g, g < mutag_gl.length → ∀ p ∈ E.getD g [],
      p.1 < lens.getD g 0 ∧ p.2 < lens.getD g 0) :
    npSplit
      ((List.range mutag_gl.length).map
        (fun g => ((mutag_a.map (fun p => (p.1 - 1, p.2 - 1))).map
          (fun p => (mutag_gi.map (fun x => x - 1)).getD p.1 0)).count g))
      ((mutag_a.map (fun p => (p.1 - 1, p.2 - 1))).map
        (fun p =>
          (((((List.range mutag_gl.length).map
            (fun g2 => (mutag_gi.map (fun x => x - 1)).count g2)).map
              List.range).flatten).getD p.1 0,
           ((((List.range mutag_gl.length).map
            (fun g2 => (mutag_gi.map (fun x => x - 1)).count g2)).map
              List.range).flatten).getD p.2 0))) =
      (List.range mutag_gl.length).map (fun g => E.getD g []) := by
  rw [mutag_edgelen_eq mutag_a mutag_gi mutag_gl lens E hlen hgi ha hbound,
    mutag_edge_flat_eq mutag_a mutag_gi mutag_gl lens E hlen hgi ha hbound]
  have hml : (List.range mutag_gl.length).map (fun g => (E.getD g []).length) =
      ((List.range mutag_gl.length).map (fun g => E.getD g [])).map List.length := by
    rw [List.map_map]
    rfl
  rw [hml]
  exact npSplit_flatten _ (by simpa using hpos)

theorem mutag_nodes_total_len (mutag_gi : List Nat) (mutag_gl : List Int)
    (mutag_n : List Nat) (lens : List Nat)
    (hlen : lens.length = mutag_gl.length) (hpos : 1 ≤ mutag_gl.length)
    (hgi : mutag_gi = ((List.range mutag_gl.length).map
      (fun g => List.replicate (lens.getD g 0) (g + 1))).flatten) :
    ((npSplit ((List.range mutag_gl.length).map
        (fun g => (mutag_gi.map (fun x => x - 1)).count g)) mutag_n).map
      (fun part => part.map (fun x => node_translate.getD x 0))).length =
      mutag_gl.length := by
  rw [mutag_graphlen_eq mutag_gi mutag_gl lens hlen hgi, List.length_map,
    npSplit_length lens mutag_n (by omega), hlen]

theorem mutag_nodes_len (mutag_gi : List Nat) (mutag_gl : List Int)
    (mutag_n : List Nat) (lens : List Nat)
    (hlen : lens.length = mutag_gl.length) (hpos : 1 ≤ mutag_gl.length)
    (hgi : mutag_gi = ((List.range mutag_gl.length).map
      (fun g => List.replicate (lens.getD g 0) (g + 1))).flatten)
    (hn : mutag_n.length = lens.sum)
    (i : Nat) (hi : i < mutag_gl.length) :
    (((npSplit ((List.range mutag_gl.length).map
        (fun g => (mutag_gi.map (fun x => x - 1)).count g)) mutag_n).map
      (fun part => part.map (fun x => node_translate.getD x 0))).getD i []).length =
      lens.getD i 0 := by
  rw [mutag_graphlen_eq mutag_gi mutag_gl lens hlen hgi]
  have hl : i < (npSplit lens mutag_n).length := by
    rw [npSplit_length lens mutag_n (by omega)]
    omega
  rw [getD_map_lt _ _ i hl [] [], List.length_map]
  exact npSplit_getD_length lens mutag_n hn i (by omega)

/-- C8: on a well-formed dataset (graph indicators grouped in graph order
and one-based, edges grouped by graph with both endpoints inside their
own graph, node labels inside the translation tables), read_in_memory
returns five lists with exactly one entry per graph, and every entry of
every edge-index array is a valid zero-based local node index of its
graph: nonnegative and strictly below the number of kept nodes, also for
graphs whose unconnected atoms were removed and remapped. -/
theorem mutagenicity_read_in_memory_spec
    (mutag_a : List (Nat × Nat)) (mutag_e : List Int) (mutag_gi : List Nat)
    (mutag_gl : List Int) (mutag_n : List Nat)
    (lens : List Nat) (E : List (List (Nat × Nat)))
    (hlen : lens.length = mutag_gl.length)
    (hpos : 1 ≤ mutag_gl.length)
    (_hE : E.length = mutag_gl.length)
    (hgi : mutag_gi = ((List.range mutag_gl.length).map
      (fun g => List.replicate (lens.getD g 0) (g + 1))).flatten)
    (hn : mutag_n.length = lens.sum)
    (ha : mutag_a = ((List.range mutag_gl.length).map
      (fun g => (E.getD g []).map
        (fun p => ((lens.take g).sum + p.1 + 1, (lens.take g).sum + p.2 + 1)))).flatten)
    (hbound : ∀ g, g < mutag_gl.length → ∀ p ∈ E.getD g [],
      p.1 < lens.getD g 0 ∧ p.2 < lens.getD g 0)
    (_hnlab : ∀ x ∈ mutag_n, x < 14) :
    ((mutagenicity_read_in_memory mutag_a mutag_e mutag_gi mutag_gl mutag_n).labels.length
        = mutag_gl.length ∧
      (mutagenicity_read_in_memory mutag_a mutag_e mutag_gi mutag_gl mutag_n).nodes.length
        = mutag_gl.length ∧
      (mutagenicity_read_in_memory mutag_a mutag_e mutag_gi mutag_gl mutag_n).edge_indices.length
        = mutag_gl.length ∧
      (mutagenicity_read_in_memory mutag_a mutag_e mutag_gi mutag_gl mutag_n).edges.length
        = mutag_gl.length ∧
      (mutagenicity_read_in_memory mutag_a mutag_e mutag_gi mutag_gl mutag_n).atoms.length
        = mutag_gl.length) ∧
    (∀ i, i < mutag_gl.length →
      ∀ p ∈ (mutagenicity_read_in_memory mutag_a mutag_e mutag_gi mutag_gl
          mutag_n).edge_indices.getD i [],
        p.1 < ((mutagenicity_read_in_memory mutag_a mutag_e mutag_gi mutag_gl
          mutag_n).nodes.getD i []).length ∧
        p.2 < ((mutagenicity_read_in_memory mutag_a mutag_e mutag_gi mutag_gl
          mutag_n).nodes.getD i []).length) := by
  have hNlen := mutag_nodes_total_len mutag_gi mutag_gl mutag_n lens hlen hpos hgi
  constructor
  · simp only [mutagenicity_read_in_memory]
    refine ⟨?_, ?_, ?_, ?_, ?_⟩ <;>
      (rw [List.length_map, List.length_range]; exact hNlen)
  · intro i hi p hp
    simp only [mutagenicity_read_in_memory] at hp ⊢
    have hb : i < ((npSplit ((List.range mutag_gl.length).map
        (fun g => (mutag_gi.map (fun x => x - 1)).count g)) mutag_n).map
      (fun part => part.map (fun x => node_translate.getD x 0))).length := by
      rw [hNlen]
      exact hi
    rw [getD_range_map _ _ _ hb] at hp
    rw [getD_range_map _ _ _ hb]
    rw [mutag_edge_indices_eq mutag_a mutag_e mutag_gi mutag_gl lens E hlen hpos
      hgi ha hbound] at hp ⊢
    rw [getD_range_map _ _ _ hi] at hp ⊢
    have hedge : ∀ q ∈ E.getD i [],
        q.1 < (((npSplit ((List.range mutag_gl.length).map
            (fun g => (mutag_gi.map (fun x => x - 1)).count g)) mutag_n).map
          (fun part => part.map (fun x => node_translate.getD x 0))).getD i []).length ∧
        q.2 < (((npSplit ((List.range mutag_gl.length).map
            (fun g => (mutag_gi.map (fun x => x - 1)).count g)) mutag_n).map
          (fun part => part.map (fun x => node_translate.getD x 0))).getD i []).length := by
      intro q hq
      rw [mutag_nodes_len mutag_gi mutag_gl mutag_n lens hlen hpos hgi hn i hi]
      exact hbound i hi q hq
    exact cleanGraph_inrange _ _ _ hedge p hp

/-- C8 witness: a concrete two-graph dataset where the second graph has
an unconnected Cl atom that the cleaning loop removes and remaps. -/
theorem mutagenicity_read_in_memory_spec_witness :
    (([2, 3] : List Nat).length = ([1, -1] : List Int).length ∧
     1 ≤ ([1, -1] : List Int).length ∧
     ([[(0, 1), (1, 0)], [(0, 1), (1, 0)]] : List (List (Nat × Nat))).length =
       ([1, -1] : List Int).length ∧
     ([1, 1, 2, 2, 2] : List Nat) =
       ((List.range ([1, -1] : List Int).length).map
         (fun g => List.replicate (([2, 3] : List Nat).getD g 0) (g + 1))).flatten ∧
     ([0, 0, 0, 1, 2] : List Nat).length = ([2, 3] : List Nat).sum ∧
     ([(1, 2), (2, 1), (3, 4), (4, 3)] : List (Nat × Nat)) =
       ((List.range ([1, -1] : List Int).length).map
         (fun g => (([[(0, 1), (1, 0)], [(0, 1), (1, 0)]] :
             List (List (Nat × Nat))).getD g []).map
           (fun p => ((([2, 3] : List Nat).take g).sum + p.1 + 1,
             (([2, 3] : List Nat).take g).sum + p.2 + 1)))).flatten ∧
     (∀ g, g < ([1, -1] : List Int).length →
       ∀ p ∈ ([[(0, 1), (1, 0)], [(0, 1), (1, 0)]] :
           List (List (Nat × Nat))).getD g [],
         p.1 < ([2, 3] : List Nat).getD g 0 ∧ p.2 < ([2, 3] : List Nat).getD g 0) ∧
     (∀ x ∈ ([0, 0, 0, 1, 2] : List Nat), x < 14)) ∧
    (((mutagenicity_read_in_memory [(1, 2), (2, 1), (3, 4), (4, 3)] [0, 0, 0, 0]
          [1, 1, 2, 2, 2] [1, -1] [0, 0, 0, 1, 2]).labels.length =
        ([1, -1] : List Int).length ∧
      (mutagenicity_read_in_memory [(1, 2), (2, 1), (3, 4), (4, 3)] [0, 0, 0, 0]
          [1, 1, 2, 2, 2] [1, -1] [0, 0, 0, 1, 2]).nodes.length =
        ([1, -1] : List Int).length ∧
      (mutagenicity_read_in_memory [(1, 2), (2, 1), (3, 4), (4, 3)] [0, 0, 0, 0]
          [1, 1, 2, 2, 2] [1, -1] [0, 0, 0, 1, 2]).edge_indices.length =
        ([1, -1] : List Int).length ∧
      (mutagenicity_read_in_memory [(1, 2), (2, 1), (3, 4), (4, 3)] [0, 0, 0, 0]
          [1, 1, 2, 2, 2] [1, -1] [0, 0, 0, 1, 2]).edges.length =
        ([1, -1] : List Int).length ∧
      (mutagenicity_read_in_memory [(1, 2), (2, 1), (3, 4), (4, 3)] [0, 0, 0, 0]
          [1, 1, 2, 2, 2] [1, -1] [0, 0, 0, 1, 2]).atoms.length =
        ([1, -1] : List Int).length) ∧
     (∀ i, i < ([1, -1] : List Int).length →
       ∀ p ∈ (mutagenicity_read_in_memory [(1, 2), (2, 1), (3, 4), (4, 3)]
           [0, 0, 0, 0] [1, 1, 2, 2, 2] [1, -1] [0, 0, 0, 1, 2]).edge_indices.getD i [],
         p.1 < ((mutagenicity_read_in_memory [(1, 2), (2, 1), (3, 4), (4, 3)]
           [0, 0, 0, 0] [1, 1, 2, 2, 2] [1, -1] [0, 0, 0, 1, 2]).nodes.getD i []).length ∧
         p.2 < ((mutagenicity_read_in_memory [(1, 2), (2, 1), (3, 4), (4, 3)]
           [0, 0, 0, 0] [1, 1, 2, 2, 2] [1, -1] [0, 0, 0, 1, 2]).nodes.getD i []).length)) :=
  ⟨⟨rfl, by decide, rfl, by decide, rfl, by decide, by decide, by decide⟩,
    mutagenicity_read_in_memory_spec [(1, 2), (2, 1), (3, 4), (4, 3)] [0, 0, 0, 0]
      [1, 1, 2, 2, 2] [1, -1] [0, 0, 0, 1, 2] [2, 3] [[(0, 1), (1, 0)], [(0, 1), (1, 0)]]
      rfl (by decide) rfl (by decide) rfl (by decide) (by decide) (by decide)⟩
